import Mathlib

/-!
# AudioWaveViwer — verification of the audio pipeline core

Shallow embedding of the renderer core of the AudioWaveViwer Electron app
(`renderer.js`, given as `src/unnamed/part_000`).  The embedding covers:

* the peak-hold tracker of `drawSpectrum` / `resetMaxPeaks` (per-bin running
  maxima over rational dB values);
* the frequency/coordinate mapping `hzToCanvasX` / `canvasXToHz` over the
  fixed breakpoint table `FREQUENCY_CONFIG.values`, modelled over `ℝ`
  (JavaScript floats are modelled as real numbers; `Math.log10` is
  `Real.logb 10` and `Math.pow 10 y` is real exponentiation);
* a state machine for the whole renderer: audio-graph wiring
  (`connectAudioPipeline`), source management (`startAudio`, `stopAudio`,
  `stopCurrentInput`, `switchToRealtimeMode`, `switchToFileMode`), file
  transport (`playFile`, `pauseFile`, `stopFile`, `startTimeUpdate`'s
  polling tick, the `onended` callback), volume/output control
  (`updateCurrentVolume`, the `btnOutput` handler, `updateVolume`) and the
  band-selection `mouseup` handler / `clearBand`.

Conventions of the machine embedding:

* Web Audio nodes are identified by `NodeRef`; the persistent nodes
  (`highpass`, `lowpass`, `gainOut`, `visualAnalyser`, `destination`) are
  fixed constructors and each dynamically created source node
  (`createMediaStreamSource` / `createBufferSource`) gets a fresh numeric id.
* The graph connections are a finite set of directed edges; `node.disconnect()`
  removes exactly the outgoing edges of that node, `a.connect(b)` inserts the
  edge `(a, b)`.
* "Stopped" source nodes (media-stream tracks stopped, or
  `AudioBufferSourceNode.stop()` called) are collected in a set: such a node
  may stay connected but produces silence.
* Time is the audio-context clock, a rational number advanced by explicit
  `advance` events; the 100ms `setInterval` poll of `startTimeUpdate` and the
  asynchronous `onended` callback are separate events so that all event
  orderings the single-threaded event loop allows can be analysed.
* `renderer.html` is not part of the sources.  Modelled from the spec: the
  timeline control read by `startTimeUpdate` (`timelineSlider.value`) reflects
  the current playback progress fraction (spec §3 PlaybackClock: the paused
  offset is recomputed from the current progress on every play), i.e. it
  equals `currentTimelineProgress`; and the `Start`/`Stop` buttons sit in the
  realtime control panel while the file controls (play/pause/stop/repeat,
  file input, timeline) sit in the file panel, so a button is clickable only
  while its panel is visible.
-/

set_option maxHeartbeats 1000000

namespace AudioWaveViewer

/-! ## PeakTracker (`peakBins` handling in `drawSpectrum`, `resetMaxPeaks`) -/

/-- The silence floor written into every bin on (re)initialisation and reset
(`peakBins[i] = -120.0`). -/
def peakFloor : ℚ := -120

/-- The pre-loop guard of `drawSpectrum`:
`if (!peakBins || peakBins.length !== n) { peakBins = new Float32Array(n); fill -120 }`. -/
def ensurePeaks (n : ℕ) (peaks : Option (List ℚ)) : List ℚ :=
  match peaks with
  | Option.none => List.replicate n peakFloor
  | Option.some p => if p.length = n then p else List.replicate n peakFloor

/-- The peak-hold update loop of `drawSpectrum`:
`for i: peakBins[i] = Math.max(freqData[i], peakBins[i])` (no decay). -/
def updatePeaks (freqData : List ℚ) (peaks : Option (List ℚ)) : List ℚ :=
  List.zipWith (fun cur pk => max cur pk) freqData (ensurePeaks freqData.length peaks)

/-- A whole sequence of spectrum frames fed through the peak-hold update. -/
def runPeaksL (frames : List (List ℚ)) (p : List ℚ) : List ℚ :=
  frames.foldl (fun acc f => updatePeaks f (Option.some acc)) p

/-- `resetMaxPeaks`: `if (peakBins) for i: peakBins[i] = -120.0`. -/
def resetMaxPeaks (peaks : Option (List ℚ)) : Option (List ℚ) :=
  peaks.map (fun p => List.replicate p.length peakFloor)

theorem updatePeaks_length (f p : List ℚ) (h : f.length = p.length) :
    (updatePeaks f (Option.some p)).length = p.length := by
  simp [updatePeaks, ensurePeaks, h]

theorem updatePeaks_le (f p : List ℚ) (h : f.length = p.length) (i : ℕ) :
    p.getD i 0 ≤ (updatePeaks f (Option.some p)).getD i 0 := by
  unfold updatePeaks ensurePeaks
  simp only [h, if_true, eq_self_iff_true]
  by_cases hi : i < p.length
  · have hlen : i < (List.zipWith (fun cur pk => max cur pk) f p).length := by
      simp [List.length_zipWith, h]; omega
    rw [List.getD_eq_getElem _ _ hi, List.getD_eq_getElem _ _ hlen]
    rw [List.getElem_zipWith]
    exact le_max_right _ _
  · have h1 : p.getD i 0 = 0 := List.getD_eq_default _ _ (by omega)
    have hlen : (List.zipWith (fun cur pk => max cur pk) f p).length ≤ i := by
      simp [List.length_zipWith, h]; omega
    have h2 : (List.zipWith (fun cur pk => max cur pk) f p).getD i 0 = 0 :=
      List.getD_eq_default _ _ hlen
    rw [h1, h2]

theorem runPeaksL_le (frames : List (List ℚ)) (p : List ℚ)
    (hf : ∀ f ∈ frames, f.length = p.length) (i : ℕ) :
    p.getD i 0 ≤ (runPeaksL frames p).getD i 0 := by
  induction frames generalizing p with
  | nil => simp [runPeaksL]
  | cons f rest ih =>
    have hfl : f.length = p.length := hf f (by simp)
    have hstep := updatePeaks_le f p hfl i
    have hlen := updatePeaks_length f p hfl
    have hrest : ∀ g ∈ rest, g.length = (updatePeaks f (Option.some p)).length := by
      intro g hg; rw [hlen]; exact hf g (by simp [hg])
    calc p.getD i 0 ≤ (updatePeaks f (Option.some p)).getD i 0 := hstep
      _ ≤ (runPeaksL rest (updatePeaks f (Option.some p))).getD i 0 := ih _ hrest
      _ = (runPeaksL (f :: rest) p).getD i 0 := by simp [runPeaksL]

/-- C6: for every bin `i` and every sequence of spectrum-update frames (each of
the analyser's bin count, as delivered by `getFloatFrequencyData`), the
peak-hold value `peakBins[i]` is non-decreasing — no decay — until an explicit
reset, and immediately after `resetMaxPeaks` every bin equals exactly `-120.0`. -/
theorem C6_peak_hold_monotone_reset (frames : List (List ℚ)) (p : List ℚ) (i : ℕ)
    (hf : ∀ f ∈ frames, f.length = p.length) :
    p.getD i 0 ≤ (runPeaksL frames p).getD i 0 ∧
    (∀ j, j < p.length → ((resetMaxPeaks (Option.some p)).getD []).getD j 0 = -120) := by
  refine ⟨runPeaksL_le frames p hf i, ?_⟩
  intro j hj
  have : (resetMaxPeaks (Option.some p)).getD [] = List.replicate p.length peakFloor := by
    simp [resetMaxPeaks]
  rw [this, List.getD_eq_getElem _ _ (by simpa using hj), List.getElem_replicate]
  rfl

/-- Witness for C6 at a concrete two-bin history. -/
theorem C6_peak_hold_monotone_reset_witness :
    ([-120, -100] : List ℚ).getD 0 0 ≤ (runPeaksL [[-30, -110]] [-120, -100]).getD 0 0 ∧
    (∀ j, j < ([-120, -100] : List ℚ).length →
      ((resetMaxPeaks (Option.some ([-120, -100] : List ℚ))).getD []).getD j 0 = -120) :=
  C6_peak_hold_monotone_reset [[-30, -110]] [-120, -100] 0 (by decide)

/-! ## FrequencyMap (`FREQUENCY_CONFIG`, `hzToCanvasX`, `canvasXToHz`)

JavaScript floats are modelled as real numbers: `Math.log10` is
`Real.logb 10` and `Math.pow 10 y` is real exponentiation, so the
"within rounding tolerance" round trip becomes an exact equality. -/

/-- `FREQUENCY_CONFIG.values`. -/
noncomputable def freqValues : List ℝ :=
  [0, 50, 100, 200, 300, 400, 500, 600, 700, 800, 900, 1000, 2000, 5000, 10000]

/-- `FREQUENCY_CACHE.logFreqs = values.map(f => f === 0 ? 0 : Math.log10(f))`. -/
noncomputable def logFreqs : List ℝ :=
  freqValues.map (fun f => if f = 0 then 0 else Real.logb 10 f)

/-- `logFreqs[i]` (out-of-range reads never happen in the loops below). -/
noncomputable def Lf (i : ℕ) : ℝ := logFreqs.getD i 0

/-- The breakpoint x-coordinates `(i / (logFreqs.length - 1)) * width`
(the list has 15 entries, so the divisor is 14). -/
noncomputable def xCoord (W : ℝ) (i : ℕ) : ℝ := (i : ℝ) / 14 * W

/-- The segment-search loop of `hzToCanvasX`
(`for i: if logHz >= f1 && logHz <= f2 return x1 + ratio*(x2-x1)`, else fall
through to `return 0`), with `fuel` the number of remaining iterations. -/
noncomputable def hzToCanvasXAux (logHz W : ℝ) : ℕ → ℕ → ℝ
  | 0, _ => 0
  | fuel + 1, i =>
    if Lf i ≤ logHz ∧ logHz ≤ Lf (i + 1) then
      xCoord W i + (logHz - Lf i) / (Lf (i + 1) - Lf i) * (xCoord W (i + 1) - xCoord W i)
    else hzToCanvasXAux logHz W fuel (i + 1)

/-- `hzToCanvasX(hz, width)`: clamp below `values[0] = 0` to `0`, above
`values[14] = 10000` to `width`, otherwise interpolate linearly in
`log10`-space within the index-adjacent segment containing `hz`. -/
noncomputable def hzToCanvasX (hz W : ℝ) : ℝ :=
  if hz ≤ 0 then 0
  else if 10000 ≤ hz then W
  else hzToCanvasXAux (if hz = 0 then 0 else Real.logb 10 hz) W 14 0

/-- The segment-search loop of `canvasXToHz` (inverse interpolation;
falls through to `return values[0] = 0`). -/
noncomputable def canvasXToHzAux (x W : ℝ) : ℕ → ℕ → ℝ
  | 0, _ => 0
  | fuel + 1, i =>
    if xCoord W i ≤ x ∧ x ≤ xCoord W (i + 1) then
      let logHz := Lf i + (x - xCoord W i) / (xCoord W (i + 1) - xCoord W i) * (Lf (i + 1) - Lf i)
      if logHz = 0 then 0 else (10 : ℝ) ^ logHz
    else canvasXToHzAux x W fuel (i + 1)

/-- `canvasXToHz(x, width)`: clamp `x <= 0` to `values[0] = 0`,
`x >= width` to `values[14] = 10000`, otherwise invert the interpolation. -/
noncomputable def canvasXToHz (x W : ℝ) : ℝ :=
  if x ≤ 0 then 0
  else if W ≤ x then 10000
  else canvasXToHzAux x W 14 0

theorem Lf_zero : Lf 0 = 0 := by
  norm_num [Lf, logFreqs, freqValues]

theorem Lf_fourteen : Lf 14 = 4 := by
  have h4 : (10000 : ℝ) = (10 : ℝ) ^ (4 : ℝ) := by
    rw [show (4 : ℝ) = ((4 : ℕ) : ℝ) by norm_num, Real.rpow_natCast]
    norm_num
  have h : Lf 14 = Real.logb 10 10000 := by
    norm_num [Lf, logFreqs, freqValues]
  rw [h, h4, Real.logb_rpow (by norm_num) (by norm_num)]

theorem Lf_succ_lt (i : ℕ) (hi : i < 14) : Lf i < Lf (i + 1) := by
  interval_cases i <;> norm_num [Lf, logFreqs, freqValues] <;>
    exact Real.logb_pos (by norm_num) (by norm_num)

theorem Lf_mono {a b : ℕ} (hab : a ≤ b) (hb : b ≤ 14) : Lf a ≤ Lf b := by
  induction b with
  | zero =>
    have : a = 0 := by omega
    subst this; exact le_refl _
  | succ n ih =>
    rcases Nat.lt_or_ge a (n + 1) with h | h
    · have h1 : Lf a ≤ Lf n := ih (by omega) (by omega)
      have h2 : Lf n < Lf (n + 1) := Lf_succ_lt n (by omega)
      linarith
    · have : a = n + 1 := by omega
      subst this; exact le_refl _

theorem Lf_nonneg (i : ℕ) (hi : i ≤ 14) : 0 ≤ Lf i := by
  have := Lf_mono (Nat.zero_le i) hi
  rw [Lf_zero] at this
  exact this

theorem xCoord_fourteen (W : ℝ) : xCoord W 14 = W := by
  unfold xCoord; norm_num

theorem xCoord_zero (W : ℝ) : xCoord W 0 = 0 := by
  unfold xCoord; norm_num

theorem xCoord_succ_sub (W : ℝ) (i : ℕ) : xCoord W (i + 1) - xCoord W i = W / 14 := by
  unfold xCoord; push_cast; ring

theorem hzToCanvasXAux_finds (W v : ℝ) (i : ℕ) (hi : i < 14)
    (h1 : Lf i ≤ v) (h2 : v ≤ Lf (i + 1)) (hbefore : ∀ m, m < i → Lf (m + 1) < v) :
    ∀ fuel k, k + fuel = 14 → k ≤ i →
      hzToCanvasXAux v W fuel k =
        xCoord W i + (v - Lf i) / (Lf (i + 1) - Lf i) * (xCoord W (i + 1) - xCoord W i) := by
  intro fuel
  induction fuel with
  | zero => intro k hk hki; omega
  | succ n ih =>
    intro k hk hki
    rcases eq_or_lt_of_le hki with rfl | hlt
    · unfold hzToCanvasXAux
      rw [if_pos ⟨h1, h2⟩]
    · unfold hzToCanvasXAux
      rw [if_neg]
      · exact ih (k + 1) (by omega) (by omega)
      · intro hcon
        exact absurd hcon.2 (not_le.2 (hbefore k hlt))

theorem roundtrip_aux (W x : ℝ) (hW : 0 < W) (hxW : x < W) :
    ∀ fuel i, i + fuel = 14 → xCoord W i < x →
      hzToCanvasX (canvasXToHzAux x W fuel i) W = x := by
  intro fuel
  induction fuel with
  | zero =>
    intro i hi hx
    exfalso
    have : i = 14 := by omega
    subst this
    rw [xCoord_fourteen] at hx
    linarith
  | succ n ih =>
    intro i hi hx
    by_cases hcase : x ≤ xCoord W (i + 1)
    · have hi14 : i < 14 := by omega
      have hΔx : xCoord W (i + 1) - xCoord W i = W / 14 := xCoord_succ_sub W i
      have hΔxpos : 0 < xCoord W (i + 1) - xCoord W i := by rw [hΔx]; positivity
      have hΔL : 0 < Lf (i + 1) - Lf i := sub_pos.2 (Lf_succ_lt i hi14)
      set r : ℝ := (x - xCoord W i) / (xCoord W (i + 1) - xCoord W i) with hr
      set v : ℝ := Lf i + r * (Lf (i + 1) - Lf i) with hv
      have hrpos : 0 < r := div_pos (by linarith) hΔxpos
      have hrle : r ≤ 1 := (div_le_one hΔxpos).2 (by linarith)
      have hv1 : Lf i < v := by nlinarith
      have hv2 : v ≤ Lf (i + 1) := by nlinarith
      have hvpos : 0 < v := lt_of_le_of_lt (Lf_nonneg i (by omega)) hv1
      have hvlt4 : v < 4 := by
        rcases Nat.lt_or_ge (i + 1) 14 with h14 | h14
        · have : Lf (i + 1) < Lf 14 := by
            have := Lf_mono (show i + 1 ≤ 13 by omega) (by omega)
            have := Lf_succ_lt 13 (by omega)
            linarith
          rw [Lf_fourteen] at this
          linarith
        · have hieq : i + 1 = 14 := by omega
          have hxlt : x < xCoord W (i + 1) := by
            rw [hieq, xCoord_fourteen]; exact hxW
          have hrlt : r < 1 := (div_lt_one hΔxpos).2 (by linarith)
          have : v < Lf (i + 1) := by nlinarith
          rw [hieq, Lf_fourteen] at this
          linarith
      have hbefore : ∀ m, m < i → Lf (m + 1) < v := by
        intro m hm
        have : Lf (m + 1) ≤ Lf i := Lf_mono (by omega) (by omega)
        linarith
      have hcond : xCoord W i ≤ x ∧ x ≤ xCoord W (i + 1) := ⟨le_of_lt hx, hcase⟩
      have hne : v ≠ 0 := ne_of_gt hvpos
      have hpow1 : (1 : ℝ) < (10 : ℝ) ^ v := by
        have h0 : (10 : ℝ) ^ (0 : ℝ) < (10 : ℝ) ^ v :=
          (Real.rpow_lt_rpow_left_iff (by norm_num)).2 hvpos
        rwa [Real.rpow_zero] at h0
      have hpowlt : (10 : ℝ) ^ v < 10000 := by
        have h4 : (10000 : ℝ) = (10 : ℝ) ^ (4 : ℝ) := by
          rw [show (4 : ℝ) = ((4 : ℕ) : ℝ) by norm_num, Real.rpow_natCast]
          norm_num
        rw [h4]
        exact (Real.rpow_lt_rpow_left_iff (by norm_num)).2 hvlt4
      have hstep : canvasXToHzAux x W (n + 1) i = (10 : ℝ) ^ v := by
        unfold canvasXToHzAux
        rw [if_pos hcond]
        simp only [← hr, ← hv, if_neg hne]
      rw [hstep]
      unfold hzToCanvasX
      rw [if_neg (by linarith), if_neg (by linarith)]
      rw [if_neg (by positivity)]
      rw [Real.logb_rpow (by norm_num) (by norm_num)]
      rw [hzToCanvasXAux_finds W v i hi14 (le_of_lt hv1) hv2 hbefore 14 0 rfl (Nat.zero_le _)]
      have hsub : v - Lf i = r * (Lf (i + 1) - Lf i) := by rw [hv]; ring
      rw [hsub]
      rw [mul_div_assoc, div_self (ne_of_gt hΔL), mul_one, hr]
      field_simp
    · unfold canvasXToHzAux
      rw [if_neg (fun h => hcase h.2)]
      push_neg at hcase
      exact ih (i + 1) (by omega) hcase

/-- C5: for every width `W > 0` and every `x` strictly between the breakpoint
boundary coordinates `0` and `W`, `hzToCanvasX (canvasXToHz x W) W = x`
(exactly, in the real-number model of the float computation); and out-of-range
inputs clamp to the nearest boundary: `hz` at or below the first breakpoint
maps to `0`, `hz` at or above the last breakpoint (10000 Hz) maps to `W`, and
the inverse map clamps `x ≤ 0` to `0 Hz` and `x ≥ W` to `10000 Hz`. -/
theorem C5_frequency_map_roundtrip (W x : ℝ) (hW : 0 < W) (hx0 : 0 < x) (hxW : x < W) :
    hzToCanvasX (canvasXToHz x W) W = x ∧
    (∀ hz : ℝ, hz ≤ 0 → hzToCanvasX hz W = 0) ∧
    (∀ hz : ℝ, 10000 ≤ hz → hzToCanvasX hz W = W) ∧
    (∀ y : ℝ, y ≤ 0 → canvasXToHz y W = 0) ∧
    (∀ y : ℝ, W ≤ y → canvasXToHz y W = 10000) := by
  refine ⟨?_, ?_, ?_, ?_, ?_⟩
  · have h : canvasXToHz x W = canvasXToHzAux x W 14 0 := by
      unfold canvasXToHz
      rw [if_neg (by linarith), if_neg (by linarith)]
    rw [h]
    have h0 : xCoord W 0 < x := by rw [xCoord_zero]; exact hx0
    exact roundtrip_aux W x hW hxW 14 0 rfl h0
  · intro hz hhz
    unfold hzToCanvasX
    rw [if_pos hhz]
  · intro hz hhz
    unfold hzToCanvasX
    rw [if_neg (by linarith), if_pos hhz]
  · intro y hy
    unfold canvasXToHz
    rw [if_pos hy]
  · intro y hy
    unfold canvasXToHz
    rw [if_neg (by linarith), if_pos hy]

/-- Witness for C5 at `W = 14`, `x = 1` (the interior of the first segment). -/
theorem C5_frequency_map_roundtrip_witness :
    hzToCanvasX (canvasXToHz 1 14) 14 = 1 ∧
    (∀ hz : ℝ, hz ≤ 0 → hzToCanvasX hz 14 = 0) ∧
    (∀ hz : ℝ, 10000 ≤ hz → hzToCanvasX hz 14 = 14) ∧
    (∀ y : ℝ, y ≤ 0 → canvasXToHz y 14 = 0) ∧
    (∀ y : ℝ, (14 : ℝ) ≤ y → canvasXToHz y 14 = 10000) :=
  C5_frequency_map_roundtrip 14 1 (by norm_num) (by norm_num) (by norm_num)

/-! ## The renderer state machine

State variables of `renderer.js` (graph nodes, source management, transport,
UI visibility) and its operations, as a transition system over rational
time.  Band frequencies computed by `canvasXToHz` enter the machine as
event parameters: the mouse-up handler stores whatever pair the conversion
produced, and every wiring/filter property below holds for arbitrary pairs. -/

/-- Identities of Web Audio nodes: dynamically created source nodes (numbered)
and the persistent nodes owned by the graph. -/
inductive NodeRef where
  | src (id : ℕ)
  | hp
  | lp
  | gain
  | vis
  | dest
deriving DecidableEq, Repr

/-- Kind of a dynamically created source node. -/
inductive SrcKind where
  | mic
  | fileBuf
deriving DecidableEq, Repr

/-- `inputMode`: the strings `'none' | 'realtime' | 'file'`. -/
inductive Mode where
  | none
  | realtime
  | file
deriving DecidableEq, Repr

/-- The mutable state of `renderer.js` relevant to the audio core. -/
structure St where
  /-- `audioCtx !== null` -/
  hasCtx : Bool
  /-- `gainOut`/`highpass`/`lowpass`/`visualAnalyser` exist (they are created
  together by `initializeAudioNodes`). -/
  nodesInit : Bool
  /-- `gainOut.gain.value` -/
  gainValue : ℚ
  /-- `highpass.frequency.value` -/
  hpFreq : ℚ
  /-- `lowpass.frequency.value` -/
  lpFreq : ℚ
  /-- `outputEnabled` -/
  outputEnabled : Bool
  /-- `volumeLevel` -/
  volumeLevel : ℚ
  /-- `inputMode` -/
  inputMode : Mode
  /-- `currentSourceNode` (id of the node it references) -/
  currentSource : Option ℕ
  /-- `realtimeSourceNode` -/
  realtimeSource : Option ℕ
  /-- `fileSourceNode` -/
  fileSource : Option ℕ
  /-- `fileSourceNode.loop` of the current file node -/
  nodeLoop : Bool
  /-- next fresh node id -/
  nextId : ℕ
  /-- kind of each created source node -/
  kinds : List (ℕ × SrcKind)
  /-- source nodes that have been silenced (media tracks stopped, or
  `AudioBufferSourceNode.stop()` called) -/
  stopped : Finset ℕ
  /-- the current `connect` edges of the audio graph -/
  edges : Finset (NodeRef × NodeRef)
  /-- `isPlaying` -/
  isPlaying : Bool
  /-- `isRepeating` -/
  isRepeating : Bool
  /-- `isRealtimeActive` -/
  isRealtimeActive : Bool
  /-- the file control panel is the visible one (`fileControls` shown,
  `realtimeControls` hidden) -/
  fileUIVisible : Bool
  /-- `fileBuffer !== null` -/
  fileLoaded : Bool
  /-- `fileDuration` -/
  fileDuration : ℚ
  /-- `selectedBandHz` -/
  selectedBand : Option (ℚ × ℚ)
  /-- `selectedBandPixels` -/
  selectedBandPixels : Option (ℚ × ℚ)
  /-- `audioCtx.currentTime` -/
  clock : ℚ
  /-- `playStartTime` -/
  playStartTime : ℚ
  /-- `pausedTime` -/
  pausedTime : ℚ
  /-- `currentTimelineProgress` (percent, set by `drawTimelineGauge`) -/
  timelineProgress : ℚ
  /-- the elapsed seconds shown in the `currentTime` label -/
  displayedTime : ℚ
  /-- `timeUpdateInterval !== null` -/
  intervalActive : Bool
  /-- offset argument of the most recent `fileSourceNode.start(0, offset)` -/
  lastStartOffset : ℚ
deriving DecidableEq

/-- The state at page load. -/
def init : St where
  hasCtx := false
  nodesInit := false
  gainValue := 0
  hpFreq := 0
  lpFreq := 0
  outputEnabled := false
  volumeLevel := 1
  inputMode := Mode.none
  currentSource := Option.none
  realtimeSource := Option.none
  fileSource := Option.none
  nodeLoop := false
  nextId := 0
  kinds := []
  stopped := ∅
  edges := ∅
  isPlaying := false
  isRepeating := false
  isRealtimeActive := false
  fileUIVisible := false
  fileLoaded := false
  fileDuration := 0
  selectedBand := Option.none
  selectedBandPixels := Option.none
  clock := 0
  playStartTime := 0
  pausedTime := 0
  timelineProgress := 0
  displayedTime := 0
  intervalActive := false
  lastStartOffset := 0

/-- `if (outputEnabled) volumeLevel else 0.0` — the value every gain write uses. -/
def gainSpec (s : St) : ℚ := if s.outputEnabled then s.volumeLevel else 0

/-- `fileSourceNode.disconnect(); fileSourceNode.stop(); fileSourceNode = null`. -/
def killFileNode (f : ℕ) (s : St) : St :=
  { s with edges := s.edges.filter (fun e => e.1 ≠ NodeRef.src f),
           stopped := insert f s.stopped,
           fileSource := Option.none }

/-- `stopCurrentInput()`: stop the realtime media tracks (the mic node stays
connected but goes silent), or disconnect+stop the file node; then
`currentSourceNode = null; inputMode = 'none'`. -/
def stopCurrentInput (s : St) : St :=
  let s1 :=
    if s.inputMode = Mode.realtime ∧ s.realtimeSource.isSome then
      { s with stopped := insert (s.realtimeSource.getD 0) s.stopped,
               realtimeSource := Option.none }
    else if s.inputMode = Mode.file ∧ s.fileSource.isSome then
      { killFileNode (s.fileSource.getD 0) s with isPlaying := false }
    else s
  { s1 with currentSource := Option.none, inputMode := Mode.none }

/-- `initializeAudioNodes()`: lazily create `gainOut` (gain =
`outputEnabled ? volumeLevel : 0`), `highpass` (20 Hz), `lowpass` (20000 Hz)
and `visualAnalyser`. -/
def initAudioNodes (s : St) : St :=
  if s.nodesInit then s
  else { s with nodesInit := true, gainValue := gainSpec s, hpFreq := 20, lpFreq := 20000 }

/-- `connectAudioPipeline()`: bail out unless a source and the nodes exist;
disconnect the managed nodes and the current source; rewire through
HPF→LPF when a band is selected (setting the cutoffs), else straight to the
gain; reapply the volume; connect gain→destination and source→analyser. -/
def connectAudioPipeline (s : St) : St :=
  match s.currentSource with
  | Option.none => s
  | Option.some c =>
    if ¬s.nodesInit then s
    else
      let e1 := s.edges.filter (fun e =>
        ¬(e.1 = NodeRef.hp ∨ e.1 = NodeRef.lp ∨ e.1 = NodeRef.gain ∨
          e.1 = NodeRef.vis ∨ e.1 = NodeRef.src c))
      let s2 :=
        match s.selectedBand with
        | Option.some b =>
          let hpv := max 10 b.1
          let lpv := max (hpv + 10) b.2
          { s with hpFreq := hpv, lpFreq := lpv,
                   edges := insert (NodeRef.lp, NodeRef.gain)
                     (insert (NodeRef.hp, NodeRef.lp)
                       (insert (NodeRef.src c, NodeRef.hp) e1)) }
        | Option.none =>
          { s with edges := insert (NodeRef.src c, NodeRef.gain) e1 }
      { s2 with gainValue := gainSpec s2,
                edges := insert (NodeRef.src c, NodeRef.vis)
                  (insert (NodeRef.gain, NodeRef.dest) s2.edges) }

/-- `updateCurrentVolume()`: `if (gainOut && currentSourceNode) gain = ...`. -/
def updateCurrentVolume (s : St) : St :=
  if s.nodesInit ∧ s.currentSource.isSome then { s with gainValue := gainSpec s } else s

/-- The `btnOutput` click handler: toggle `outputEnabled`, then
`updateCurrentVolume()`. -/
def toggleOutput (s : St) : St :=
  updateCurrentVolume { s with outputEnabled := ¬s.outputEnabled }

/-- `updateVolume(volumePercent)`: set `volumeLevel = percent / 100`, then
`updateCurrentVolume()`. -/
def setVolume (p : ℚ) (s : St) : St :=
  updateCurrentVolume { s with volumeLevel := p / 100 }

/-- `stopAudio()`: stop the input when in realtime mode; clear
`isRealtimeActive`. -/
def stopAudio (s : St) : St :=
  let s1 := if s.inputMode = Mode.realtime then stopCurrentInput s else s
  { s1 with isRealtimeActive := false }

/-- `switchToRealtimeMode()`: stop a playing file first; show the realtime
panel; if not already in realtime mode, `stopCurrentInput` and point
`currentSourceNode` at `realtimeSourceNode`; resync the volume. -/
def switchToRealtimeMode (s : St) : St :=
  let s1 :=
    if s.isPlaying ∧ s.inputMode = Mode.file then
      let t := match s.fileSource with
               | Option.some f => killFileNode f s
               | Option.none => s
      { t with isPlaying := false, intervalActive := false }
    else s
  let s2 := { s1 with fileUIVisible := false }
  let s3 :=
    if s2.inputMode ≠ Mode.realtime then
      let t := stopCurrentInput s2
      { t with inputMode := Mode.realtime, currentSource := t.realtimeSource }
    else s2
  if s3.nodesInit then { s3 with gainValue := gainSpec s3 } else s3

/-- `switchToFileMode()`: stop realtime audio when it is running; show the
file panel; when a buffer is loaded, enter file mode (tearing down the
current input first) and resync the volume. -/
def switchToFileMode (s : St) : St :=
  let s1 := if s.isRealtimeActive ∧ s.inputMode = Mode.realtime then stopAudio s else s
  let s2 := { s1 with fileUIVisible := true }
  if ¬s2.fileLoaded then s2
  else
    let s3 :=
      if s2.inputMode ≠ Mode.file then
        let t := stopCurrentInput s2
        { t with inputMode := Mode.file, currentSource := t.fileSource }
      else s2
    if s3.nodesInit then { s3 with gainValue := gainSpec s3 } else s3

/-- `startAudio()` (success path): `stopCurrentInput`; ensure the context and
nodes; create a fresh media-stream source; enter realtime mode;
`connectAudioPipeline`; `switchToRealtimeInput`; mark active. -/
def startAudio (s : St) : St :=
  let s1 := stopCurrentInput s
  let s2 := initAudioNodes { s1 with hasCtx := true }
  let r := s2.nextId
  let s3 := { s2 with realtimeSource := Option.some r, nextId := r + 1,
                      kinds := (r, SrcKind.mic) :: s2.kinds,
                      currentSource := Option.some r, inputMode := Mode.realtime }
  let s4 := connectAudioPipeline s3
  let s5 := switchToRealtimeMode s4
  { s5 with isRealtimeActive := true }

/-- The `fileInput` change handler (successful decode): `stopCurrentInput`;
ensure the context; store the decoded buffer and duration; ensure the
nodes; `switchToFileMode`; reset the timeline display. -/
def loadFile (d : ℚ) (s : St) : St :=
  let s1 := stopCurrentInput s
  let s2 := initAudioNodes { s1 with hasCtx := true, fileLoaded := true, fileDuration := d }
  let s3 := switchToFileMode s2
  { s3 with timelineProgress := 0, displayedTime := 0 }

/-- `playFile()`: bail out without buffer or context; clean up a previous
file node; create a fresh buffer source (loop = `isRepeating`); rewire;
`start(0, progress/100 * duration)`; mark playing; `startTimeUpdate()`
(anchor = clock, paused offset from the timeline position — modelled from
the spec: the timeline control reflects `currentTimelineProgress`). -/
def playFile (s : St) : St :=
  if ¬s.fileLoaded ∨ ¬s.hasCtx then s
  else
    let s1 := match s.fileSource with
              | Option.some f => killFileNode f s
              | Option.none => s
    let f := s1.nextId
    let s2 := { s1 with fileSource := Option.some f, nextId := f + 1,
                        kinds := (f, SrcKind.fileBuf) :: s1.kinds,
                        nodeLoop := s1.isRepeating,
                        currentSource := Option.some f }
    let s3 := connectAudioPipeline s2
    let startT := s3.timelineProgress / 100 * s3.fileDuration
    { s3 with lastStartOffset := startT, isPlaying := true,
              playStartTime := s3.clock,
              pausedTime := s3.timelineProgress / 100 * s3.fileDuration,
              intervalActive := true }

/-- `pauseFile()`: only when a node exists and we are playing — disconnect and
stop it (caught), drop it, clear `isPlaying`, `stopTimeUpdate()`.  The
timeline display is left untouched (frozen). -/
def pauseFile (s : St) : St :=
  if s.fileSource.isSome ∧ s.isPlaying then
    { killFileNode (s.fileSource.getD 0) s with isPlaying := false, intervalActive := false }
  else s

/-- `stopFile()`: tear the node down if present, clear `isPlaying`, reset the
timeline to 00:00 and progress 0, `stopTimeUpdate()`. -/
def stopFile (s : St) : St :=
  let s1 := match s.fileSource with
            | Option.some f => killFileNode f s
            | Option.none => s
  { s1 with isPlaying := false, timelineProgress := 0, displayedTime := 0,
            intervalActive := false }

/-- One firing of the 100ms `setInterval` callback installed by
`startTimeUpdate`: recompute `elapsed = currentTime - playStartTime +
pausedTime`, redraw gauge and label, and call `stopFile()` once
`elapsed >= fileDuration` while not repeating. -/
def tickFn (s : St) : St :=
  if s.intervalActive ∧ s.isPlaying ∧ s.hasCtx then
    let elapsed := s.clock - s.playStartTime + s.pausedTime
    let progress := min (elapsed / s.fileDuration) 1 * 100
    let s1 := { s with timelineProgress := progress, displayedTime := elapsed }
    if s.fileDuration ≤ elapsed ∧ ¬s.isRepeating then stopFile s1 else s1
  else s

/-- The `onended` callback of the current (non-looping) file node may fire
once the clock has passed its natural end
(`playStartTime + (duration - startOffset)`); the handler runs
`if (!isRepeating) pauseFile()`. -/
def endedFn (s : St) : St :=
  if s.isPlaying ∧ s.fileSource.isSome ∧ ¬s.nodeLoop ∧
      s.playStartTime + (s.fileDuration - s.pausedTime) ≤ s.clock then
    if ¬s.isRepeating then pauseFile s else s
  else s

/-- `btnRepeat` handler: toggle `isRepeating` and, if a file node exists,
update its `loop` flag. -/
def toggleRepeat (s : St) : St :=
  let s1 := { s with isRepeating := ¬s.isRepeating }
  if s1.fileSource.isSome then { s1 with nodeLoop := s1.isRepeating } else s1

/-- `clearBand()`: drop `selectedBandHz`/`selectedBandPixels` and rewire
(back to pass-through). -/
def clearBand (s : St) : St :=
  connectAudioPipeline { s with selectedBand := Option.none,
                                selectedBandPixels := Option.none }

/-- The window `mouseup` handler for a completed spectrum drag with raw
endpoints `xs`, `xe` and canvas width `rectW` (plot padding: left 0,
right 10).  `lo`/`hi` stand for the values `canvasXToHz` returned for the
plot-relative endpoints.  Commit requires both endpoints inside the plot and
a span of at least 5 px; anything else is treated as a click: `clearBand()`. -/
def mouseUpFn (xs xe rectW lo hi : ℚ) (s : St) : St :=
  let x1 := min xs xe
  let x2 := max xs xe
  let plotW := rectW - 10
  if 0 ≤ x1 ∧ x2 ≤ plotW ∧ 5 ≤ x2 - x1 then
    connectAudioPipeline { s with selectedBandPixels := Option.some (x1, x2),
                                  selectedBand := Option.some (lo, hi) }
  else clearBand s

/-- User/system events.  Button events fire only while the button's panel is
visible (modelled from the spec; `renderer.html` is not in the sources). -/
inductive Ev where
  | start
  | stopRt
  | switchRt
  | switchFile
  | load (d : ℚ)
  | play
  | pause
  | stopF
  | toggleOut
  | setVol (p : ℚ)
  | toggleRep
  | mouseUp (xs xe rectW lo hi : ℚ)
  | clear
  | tick
  | ended
  | advance (dt : ℚ)

/-- One step of the machine. -/
def step (e : Ev) (s : St) : St :=
  match e with
  | Ev.start => if s.fileUIVisible then s else startAudio s
  | Ev.stopRt => if s.fileUIVisible then s else stopAudio s
  | Ev.switchRt => switchToRealtimeMode s
  | Ev.switchFile => switchToFileMode s
  | Ev.load d => if s.fileUIVisible then loadFile d s else s
  | Ev.play => if s.fileUIVisible then playFile s else s
  | Ev.pause => if s.fileUIVisible then pauseFile s else s
  | Ev.stopF => if s.fileUIVisible then stopFile s else s
  | Ev.toggleOut => toggleOutput s
  | Ev.setVol p => setVolume p s
  | Ev.toggleRep => if s.fileUIVisible then toggleRepeat s else s
  | Ev.mouseUp a b w lo hi => mouseUpFn a b w lo hi s
  | Ev.clear => clearBand s
  | Ev.tick => tickFn s
  | Ev.ended => endedFn s
  | Ev.advance dt => { s with clock := s.clock + dt }

/-- Run the machine from page load. -/
def run (evs : List Ev) : St := evs.foldl (fun s e => step e s) init

theorem run_append (evs : List Ev) (e : Ev) : run (evs ++ [e]) = step e (run evs) := by
  simp [run, List.foldl_append]

/-! ### The reachable-state invariant -/

/-- Source node `i` is live (not silenced) and connected to the audible input
of the graph (directly to the gain, or into the highpass of the filter
chain). -/
def liveConn (s : St) (i : ℕ) : Prop :=
  i ∉ s.stopped ∧
    ((NodeRef.src i, NodeRef.gain) ∈ s.edges ∨ (NodeRef.src i, NodeRef.hp) ∈ s.edges)

/-- Invariant of every state reachable from page load. -/
structure Inv (s : St) : Prop where
  gainOk : s.nodesInit = true → s.currentSource.isSome → s.gainValue = gainSpec s
  loadedInit : s.fileLoaded = true → s.nodesInit = true ∧ s.hasCtx = true
  rsOk : ∀ r, s.realtimeSource = Option.some r →
    s.inputMode = Mode.realtime ∧ s.currentSource = Option.some r ∧
      s.isRealtimeActive = true ∧ s.fileUIVisible = false
  fsOk : ∀ f, s.fileSource = Option.some f →
    s.inputMode = Mode.file ∧ s.currentSource = Option.some f ∧ s.isPlaying = true
  csOk : ∀ c, s.currentSource = Option.some c →
    c ∈ s.stopped ∨ s.realtimeSource = Option.some c ∨ s.fileSource = Option.some c
  playingFs : s.isPlaying = true → s.fileSource.isSome
  modeNone : s.inputMode = Mode.none → s.currentSource = Option.none
  fileVis : s.fileUIVisible = true → s.fileLoaded = true → s.inputMode = Mode.file
  lcOk : ∀ i, liveConn s i → s.currentSource = Option.some i ∧
    (s.realtimeSource = Option.some i ∨ s.fileSource = Option.some i)
  visOk : ∀ e ∈ s.edges, e.2 = NodeRef.vis → ∃ i, e.1 = NodeRef.src i

theorem inv_init : Inv init := by
  constructor <;> simp [init, liveConn]

/-! #### Characterisation of the base operations -/

theorem stopCurrentInput_cs (s : St) : (stopCurrentInput s).currentSource = Option.none := by
  simp [stopCurrentInput]

theorem stopCurrentInput_mode (s : St) : (stopCurrentInput s).inputMode = Mode.none := by
  simp [stopCurrentInput]

theorem stopCurrentInput_unch (s : St) :
    (stopCurrentInput s).nodesInit = s.nodesInit ∧
    (stopCurrentInput s).hasCtx = s.hasCtx ∧
    (stopCurrentInput s).gainValue = s.gainValue ∧
    (stopCurrentInput s).outputEnabled = s.outputEnabled ∧
    (stopCurrentInput s).volumeLevel = s.volumeLevel ∧
    (stopCurrentInput s).fileLoaded = s.fileLoaded ∧
    (stopCurrentInput s).fileUIVisible = s.fileUIVisible ∧
    (stopCurrentInput s).isRealtimeActive = s.isRealtimeActive ∧
    (stopCurrentInput s).fileDuration = s.fileDuration ∧
    (stopCurrentInput s).selectedBand = s.selectedBand ∧
    (stopCurrentInput s).clock = s.clock ∧
    (stopCurrentInput s).timelineProgress = s.timelineProgress ∧
    (stopCurrentInput s).displayedTime = s.displayedTime ∧
    (stopCurrentInput s).nextId = s.nextId := by
  simp only [stopCurrentInput, killFileNode]
  split_ifs <;> simp

theorem stopCurrentInput_eq_rt (s : St) (r : ℕ) (hrs : s.realtimeSource = Option.some r)
    (hm : s.inputMode = Mode.realtime) :
    (stopCurrentInput s).stopped = insert r s.stopped ∧
    (stopCurrentInput s).edges = s.edges ∧
    (stopCurrentInput s).isPlaying = s.isPlaying ∧
    (stopCurrentInput s).realtimeSource = Option.none ∧
    (stopCurrentInput s).fileSource = s.fileSource ∧
    (stopCurrentInput s).intervalActive = s.intervalActive := by
  simp only [stopCurrentInput]
  rw [if_pos ⟨hm, by simp [hrs]⟩]
  simp [hrs]

theorem stopCurrentInput_eq_file (s : St) (f : ℕ) (hfs : s.fileSource = Option.some f)
    (hnotrt : ¬(s.inputMode = Mode.realtime ∧ s.realtimeSource.isSome = true))
    (hm : s.inputMode = Mode.file) :
    (stopCurrentInput s).stopped = insert f s.stopped ∧
    (stopCurrentInput s).edges = s.edges.filter (fun e => e.1 ≠ NodeRef.src f) ∧
    (stopCurrentInput s).isPlaying = false ∧
    (stopCurrentInput s).realtimeSource = s.realtimeSource ∧
    (stopCurrentInput s).fileSource = Option.none ∧
    (stopCurrentInput s).intervalActive = s.intervalActive := by
  simp only [stopCurrentInput]
  rw [if_neg hnotrt, if_pos ⟨hm, by simp [hfs]⟩]
  simp [killFileNode, hfs]

theorem stopCurrentInput_eq_idle (s : St)
    (h1 : ¬(s.inputMode = Mode.realtime ∧ s.realtimeSource.isSome = true))
    (h2 : ¬(s.inputMode = Mode.file ∧ s.fileSource.isSome = true)) :
    stopCurrentInput s = { s with currentSource := Option.none, inputMode := Mode.none } := by
  simp only [stopCurrentInput]
  rw [if_neg h1, if_neg h2]

theorem inv_not_rt_file (s : St) (h : Inv s) (f : ℕ) (hfs : s.fileSource = Option.some f) :
    ¬(s.inputMode = Mode.realtime ∧ s.realtimeSource.isSome = true) := by
  rintro ⟨h1, -⟩
  obtain ⟨hm, -, -⟩ := h.fsOk f hfs
  rw [hm] at h1
  exact Mode.noConfusion h1

theorem stopCurrentInput_rs (s : St) (h : Inv s) :
    (stopCurrentInput s).realtimeSource = Option.none := by
  rcases hrs : s.realtimeSource with _ | r
  · rcases hfs : s.fileSource with _ | f
    · rw [stopCurrentInput_eq_idle s (by simp [hrs]) (by simp [hfs])]
      exact hrs
    · exact (stopCurrentInput_eq_file s f hfs (inv_not_rt_file s h f hfs)
        (h.fsOk f hfs).1).2.2.2.1.trans hrs
  · exact (stopCurrentInput_eq_rt s r hrs (h.rsOk r hrs).1).2.2.2.1

theorem stopCurrentInput_fs (s : St) (h : Inv s) :
    (stopCurrentInput s).fileSource = Option.none := by
  rcases hrs : s.realtimeSource with _ | r
  · rcases hfs : s.fileSource with _ | f
    · rw [stopCurrentInput_eq_idle s (by simp [hrs]) (by simp [hfs])]
      exact hfs
    · exact (stopCurrentInput_eq_file s f hfs (inv_not_rt_file s h f hfs)
        (h.fsOk f hfs).1).2.2.2.2.1
  · rcases hfs : s.fileSource with _ | f
    · exact (stopCurrentInput_eq_rt s r hrs (h.rsOk r hrs).1).2.2.2.2.1.trans hfs
    · obtain ⟨hm, -, -⟩ := h.fsOk f hfs
      obtain ⟨hm2, -, -, -⟩ := h.rsOk r hrs
      rw [hm] at hm2
      exact Mode.noConfusion hm2

theorem inv_notPlaying_of_fs_none (s : St) (h : Inv s)
    (hfs : s.fileSource = Option.none) : s.isPlaying = false := by
  rcases hip : s.isPlaying with _ | _
  · rfl
  · have := h.playingFs hip
    rw [hfs] at this
    simp at this

theorem stopCurrentInput_notPlaying (s : St) (h : Inv s) :
    (stopCurrentInput s).isPlaying = false := by
  rcases hfs : s.fileSource with _ | f
  · have hp : s.isPlaying = false := inv_notPlaying_of_fs_none s h hfs
    rcases hrs : s.realtimeSource with _ | r
    · rw [stopCurrentInput_eq_idle s (by simp [hrs]) (by simp [hfs])]
      exact hp
    · exact ((stopCurrentInput_eq_rt s r hrs (h.rsOk r hrs).1).2.2.1).trans hp
  · exact (stopCurrentInput_eq_file s f hfs (inv_not_rt_file s h f hfs)
      (h.fsOk f hfs).1).2.2.1

theorem stopCurrentInput_noLive (s : St) (h : Inv s) :
    ∀ i, ¬ liveConn (stopCurrentInput s) i := by
  intro i hlc
  rcases hrs : s.realtimeSource with _ | r
  · rcases hfs : s.fileSource with _ | f
    · rw [stopCurrentInput_eq_idle s (by simp [hrs]) (by simp [hfs])] at hlc
      have hpre : liveConn s i := ⟨hlc.1, hlc.2⟩
      obtain ⟨-, hor⟩ := h.lcOk i hpre
      rcases hor with h' | h'
      · rw [hrs] at h'; exact Option.noConfusion h'
      · rw [hfs] at h'; exact Option.noConfusion h'
    · obtain ⟨hst, hed, -, -, -, -⟩ :=
        stopCurrentInput_eq_file s f hfs (inv_not_rt_file s h f hfs) (h.fsOk f hfs).1
      obtain ⟨h1, h2⟩ := hlc
      rw [hst] at h1
      rw [hed] at h2
      simp only [Finset.mem_insert, Finset.mem_filter] at h1 h2
      have hif : i ≠ f := fun he => h1 (Or.inl he)
      have hpre : liveConn s i := by
        refine ⟨fun hc => h1 (Or.inr hc), ?_⟩
        rcases h2 with h2 | h2
        · exact Or.inl h2.1
        · exact Or.inr h2.1
      obtain ⟨-, hor⟩ := h.lcOk i hpre
      rcases hor with h' | h'
      · rw [hrs] at h'; exact Option.noConfusion h'
      · rw [hfs] at h'; exact hif (Option.some.inj h').symm
  · obtain ⟨hst, hed, -, -, -, -⟩ := stopCurrentInput_eq_rt s r hrs (h.rsOk r hrs).1
    obtain ⟨h1, h2⟩ := hlc
    rw [hst] at h1
    rw [hed] at h2
    simp only [Finset.mem_insert] at h1
    have hir : i ≠ r := fun he => h1 (Or.inl he)
    have hpre : liveConn s i := ⟨fun hc => h1 (Or.inr hc), h2⟩
    obtain ⟨-, hor⟩ := h.lcOk i hpre
    rcases hor with h' | h'
    · rw [hrs] at h'; exact hir (Option.some.inj h').symm
    · obtain ⟨hmf, -, -⟩ := h.fsOk _ h'
      obtain ⟨hm, -, -, -⟩ := h.rsOk r hrs
      rw [hm] at hmf
      exact Mode.noConfusion hmf

theorem connect_id_of_none (s : St) (hc : s.currentSource = Option.none) :
    connectAudioPipeline s = s := by
  unfold connectAudioPipeline
  rw [hc]

theorem connect_id_of_notInit (s : St) (c : ℕ) (hc : s.currentSource = Option.some c)
    (hn : s.nodesInit = false) : connectAudioPipeline s = s := by
  unfold connectAudioPipeline
  rw [hc]
  simp [hn]

theorem connect_unch (s : St) :
    (connectAudioPipeline s).currentSource = s.currentSource ∧
    (connectAudioPipeline s).realtimeSource = s.realtimeSource ∧
    (connectAudioPipeline s).fileSource = s.fileSource ∧
    (connectAudioPipeline s).inputMode = s.inputMode ∧
    (connectAudioPipeline s).stopped = s.stopped ∧
    (connectAudioPipeline s).isPlaying = s.isPlaying ∧
    (connectAudioPipeline s).fileUIVisible = s.fileUIVisible ∧
    (connectAudioPipeline s).fileLoaded = s.fileLoaded ∧
    (connectAudioPipeline s).nodesInit = s.nodesInit ∧
    (connectAudioPipeline s).hasCtx = s.hasCtx ∧
    (connectAudioPipeline s).outputEnabled = s.outputEnabled ∧
    (connectAudioPipeline s).volumeLevel = s.volumeLevel ∧
    (connectAudioPipeline s).isRealtimeActive = s.isRealtimeActive ∧
    (connectAudioPipeline s).isRepeating = s.isRepeating ∧
    (connectAudioPipeline s).isPlaying = s.isPlaying ∧
    (connectAudioPipeline s).clock = s.clock ∧
    (connectAudioPipeline s).timelineProgress = s.timelineProgress ∧
    (connectAudioPipeline s).fileDuration = s.fileDuration ∧
    (connectAudioPipeline s).intervalActive = s.intervalActive ∧
    (connectAudioPipeline s).displayedTime = s.displayedTime ∧
    (connectAudioPipeline s).selectedBand = s.selectedBand := by
  unfold connectAudioPipeline
  cases hc : s.currentSource with
  | none => simp [hc]
  | some c =>
    split_ifs <;> cases hb : s.selectedBand <;> simp [hc]

theorem gainSpec_congr (s t : St) (he : t.outputEnabled = s.outputEnabled)
    (hv : t.volumeLevel = s.volumeLevel) : gainSpec t = gainSpec s := by
  simp [gainSpec, he, hv]

theorem connect_gain (s : St) (c : ℕ) (hc : s.currentSource = Option.some c)
    (hn : s.nodesInit = true) :
    (connectAudioPipeline s).gainValue = gainSpec s := by
  unfold connectAudioPipeline
  rw [hc]
  simp only [hn]
  cases hb : s.selectedBand <;> simp [gainSpec]

theorem connect_edges_eq_none (s : St) (c : ℕ) (hc : s.currentSource = Option.some c)
    (hn : s.nodesInit = true) (hb : s.selectedBand = Option.none) :
    (connectAudioPipeline s).edges =
      insert (NodeRef.src c, NodeRef.vis) (insert (NodeRef.gain, NodeRef.dest)
        (insert (NodeRef.src c, NodeRef.gain) (s.edges.filter (fun e =>
          ¬(e.1 = NodeRef.hp ∨ e.1 = NodeRef.lp ∨ e.1 = NodeRef.gain ∨
            e.1 = NodeRef.vis ∨ e.1 = NodeRef.src c))))) := by
  unfold connectAudioPipeline
  rw [hc]
  simp only [hn, hb]
  simp

theorem connect_edges_eq_some (s : St) (c : ℕ) (b : ℚ × ℚ)
    (hc : s.currentSource = Option.some c) (hn : s.nodesInit = true)
    (hb : s.selectedBand = Option.some b) :
    (connectAudioPipeline s).edges =
      insert (NodeRef.src c, NodeRef.vis) (insert (NodeRef.gain, NodeRef.dest)
        (insert (NodeRef.lp, NodeRef.gain) (insert (NodeRef.hp, NodeRef.lp)
          (insert (NodeRef.src c, NodeRef.hp) (s.edges.filter (fun e =>
            ¬(e.1 = NodeRef.hp ∨ e.1 = NodeRef.lp ∨ e.1 = NodeRef.gain ∨
              e.1 = NodeRef.vis ∨ e.1 = NodeRef.src c))))))) := by
  unfold connectAudioPipeline
  rw [hc]
  simp only [hn, hb]
  simp

theorem connect_edges_cases (s : St) (c : ℕ) (hc : s.currentSource = Option.some c)
    (hn : s.nodesInit = true) :
    ∀ e ∈ (connectAudioPipeline s).edges,
      e ∈ s.edges ∨ e = (NodeRef.src c, NodeRef.vis) ∨ e = (NodeRef.gain, NodeRef.dest) ∨
      e = (NodeRef.src c, NodeRef.gain) ∨ e = (NodeRef.src c, NodeRef.hp) ∨
      e = (NodeRef.hp, NodeRef.lp) ∨ e = (NodeRef.lp, NodeRef.gain) := by
  intro e he
  cases hb : s.selectedBand with
  | none =>
    rw [connect_edges_eq_none s c hc hn hb] at he
    simp only [Finset.mem_insert, Finset.mem_filter] at he
    rcases he with h | h | h | h
    · exact Or.inr (Or.inl h)
    · exact Or.inr (Or.inr (Or.inl h))
    · exact Or.inr (Or.inr (Or.inr (Or.inl h)))
    · exact Or.inl h.1
  | some b =>
    rw [connect_edges_eq_some s c b hc hn hb] at he
    simp only [Finset.mem_insert, Finset.mem_filter] at he
    rcases he with h | h | h | h | h | h
    · exact Or.inr (Or.inl h)
    · exact Or.inr (Or.inr (Or.inl h))
    · exact Or.inr (Or.inr (Or.inr (Or.inr (Or.inr (Or.inr h)))))
    · exact Or.inr (Or.inr (Or.inr (Or.inr (Or.inr (Or.inl h)))))
    · exact Or.inr (Or.inr (Or.inr (Or.inr (Or.inl h))))
    · exact Or.inl h.1

theorem connect_vis_edge (s : St) (c : ℕ) (hc : s.currentSource = Option.some c)
    (hn : s.nodesInit = true) :
    (NodeRef.src c, NodeRef.vis) ∈ (connectAudioPipeline s).edges := by
  unfold connectAudioPipeline
  rw [hc]
  simp only [hn]
  cases hb : s.selectedBand <;> simp

theorem connect_passthrough (s : St) (c : ℕ) (hc : s.currentSource = Option.some c)
    (hn : s.nodesInit = true) (hb : s.selectedBand = Option.none) :
    (NodeRef.src c, NodeRef.gain) ∈ (connectAudioPipeline s).edges ∧
    (NodeRef.src c, NodeRef.hp) ∉ (connectAudioPipeline s).edges := by
  unfold connectAudioPipeline
  rw [hc]
  simp only [hn, hb]
  constructor
  · simp
  · simp

theorem connect_band_freqs (s : St) (c : ℕ) (lo hi : ℚ)
    (hc : s.currentSource = Option.some c) (hn : s.nodesInit = true)
    (hb : s.selectedBand = Option.some (lo, hi)) :
    (connectAudioPipeline s).hpFreq = max 10 lo ∧
    (connectAudioPipeline s).lpFreq = max (max 10 lo + 10) hi := by
  unfold connectAudioPipeline
  rw [hc]
  simp [hn, hb]

theorem connect_live (s : St) (i : ℕ) (hl : liveConn (connectAudioPipeline s) i) :
    liveConn s i ∨ s.currentSource = Option.some i := by
  cases hc : s.currentSource with
  | none => rw [connect_id_of_none s hc] at hl; exact Or.inl hl
  | some c =>
    rcases hn : s.nodesInit with _ | _
    · rw [connect_id_of_notInit s c hc hn] at hl; exact Or.inl hl
    · obtain ⟨h1, h2⟩ := hl
      rw [(connect_unch s).2.2.2.2.1] at h1
      rcases h2 with h2 | h2
      · rcases connect_edges_cases s c hc hn _ h2 with h | h | h | h | h | h | h
        · exact Or.inl ⟨h1, Or.inl h⟩
        · exact absurd (congrArg Prod.snd h) (by simp)
        · exact absurd (congrArg Prod.fst h) (by simp)
        · have hic : i = c := by
            have := congrArg Prod.fst h
            simp at this
            exact this
          exact Or.inr (by rw [hic])
        · exact absurd (congrArg Prod.snd h) (by simp)
        · exact absurd (congrArg Prod.fst h) (by simp)
        · exact absurd (congrArg Prod.fst h) (by simp)
      · rcases connect_edges_cases s c hc hn _ h2 with h | h | h | h | h | h | h
        · exact Or.inl ⟨h1, Or.inr h⟩
        · exact absurd (congrArg Prod.snd h) (by simp)
        · exact absurd (congrArg Prod.fst h) (by simp)
        · exact absurd (congrArg Prod.snd h) (by simp)
        · have hic : i = c := by
            have := congrArg Prod.fst h
            simp at this
            exact this
          exact Or.inr (by rw [hic])
        · exact absurd (congrArg Prod.fst h) (by simp)
        · exact absurd (congrArg Prod.fst h) (by simp)

theorem connect_visOk (s : St)
    (hv : ∀ e ∈ s.edges, e.2 = NodeRef.vis → ∃ i, e.1 = NodeRef.src i) :
    ∀ e ∈ (connectAudioPipeline s).edges, e.2 = NodeRef.vis → ∃ i, e.1 = NodeRef.src i := by
  intro e he hvis
  cases hc : s.currentSource with
  | none => rw [connect_id_of_none s hc] at he; exact hv e he hvis
  | some c =>
    rcases hn : s.nodesInit with _ | _
    · rw [connect_id_of_notInit s c hc hn] at he; exact hv e he hvis
    · rcases connect_edges_cases s c hc hn _ he with h | h | h | h | h | h | h
      · exact hv e h hvis
      · exact ⟨c, by rw [h]⟩
      · rw [h] at hvis; simp at hvis
      · rw [h] at hvis; simp at hvis
      · rw [h] at hvis; simp at hvis
      · rw [h] at hvis; simp at hvis
      · rw [h] at hvis; simp at hvis

theorem initAudioNodes_unch (s : St) :
    (initAudioNodes s).currentSource = s.currentSource ∧
    (initAudioNodes s).realtimeSource = s.realtimeSource ∧
    (initAudioNodes s).fileSource = s.fileSource ∧
    (initAudioNodes s).inputMode = s.inputMode ∧
    (initAudioNodes s).stopped = s.stopped ∧
    (initAudioNodes s).edges = s.edges ∧
    (initAudioNodes s).isPlaying = s.isPlaying ∧
    (initAudioNodes s).fileUIVisible = s.fileUIVisible ∧
    (initAudioNodes s).fileLoaded = s.fileLoaded ∧
    (initAudioNodes s).hasCtx = s.hasCtx ∧
    (initAudioNodes s).outputEnabled = s.outputEnabled ∧
    (initAudioNodes s).volumeLevel = s.volumeLevel ∧
    (initAudioNodes s).isRealtimeActive = s.isRealtimeActive ∧
    (initAudioNodes s).nextId = s.nextId ∧
    (initAudioNodes s).clock = s.clock ∧
    (initAudioNodes s).timelineProgress = s.timelineProgress ∧
    (initAudioNodes s).fileDuration = s.fileDuration := by
  unfold initAudioNodes
  split_ifs <;> simp

theorem initAudioNodes_init (s : St) : (initAudioNodes s).nodesInit = true := by
  unfold initAudioNodes
  split_ifs with h
  · exact h
  · simp

theorem initAudioNodes_gain (s : St) (h : Inv s) (hc : s.currentSource = Option.none) :
    (initAudioNodes s).nodesInit = true → (initAudioNodes s).currentSource.isSome = true →
      (initAudioNodes s).gainValue = gainSpec (initAudioNodes s) := by
  intro _ hcs
  rw [(initAudioNodes_unch s).1, hc] at hcs
  simp at hcs

theorem liveConn_congr (s t : St) (hst : t.stopped = s.stopped) (hed : t.edges = s.edges)
    (i : ℕ) : liveConn t i ↔ liveConn s i := by
  unfold liveConn
  rw [hst, hed]

theorem inv_transfer (s t : St) (h : Inv s)
    (hgain : t.gainValue = s.gainValue) (hen : t.outputEnabled = s.outputEnabled)
    (hvol : t.volumeLevel = s.volumeLevel) (hinit : t.nodesInit = s.nodesInit)
    (hctx : t.hasCtx = s.hasCtx) (hload : t.fileLoaded = s.fileLoaded)
    (hmode : t.inputMode = s.inputMode) (hcs : t.currentSource = s.currentSource)
    (hrs : t.realtimeSource = s.realtimeSource) (hfs : t.fileSource = s.fileSource)
    (hstop : t.stopped = s.stopped) (hed : t.edges = s.edges)
    (hplay : t.isPlaying = s.isPlaying) (hact : t.isRealtimeActive = s.isRealtimeActive)
    (hvis : t.fileUIVisible = s.fileUIVisible) : Inv t := by
  constructor
  · intro h1 h2
    rw [hinit] at h1
    rw [hcs] at h2
    rw [hgain, gainSpec_congr s t hen hvol]
    exact h.gainOk h1 h2
  · intro hl
    rw [hload] at hl
    rw [hinit, hctx]
    exact h.loadedInit hl
  · intro r hr
    rw [hrs] at hr
    obtain ⟨a, b, c, d⟩ := h.rsOk r hr
    exact ⟨hmode.trans a, hcs.trans b, hact.trans c, hvis.trans d⟩
  · intro f hf
    rw [hfs] at hf
    obtain ⟨a, b, c⟩ := h.fsOk f hf
    exact ⟨hmode.trans a, hcs.trans b, hplay.trans c⟩
  · intro c hc
    rw [hcs] at hc
    rcases h.csOk c hc with a | a | a
    · exact Or.inl (by rw [hstop]; exact a)
    · exact Or.inr (Or.inl (hrs.trans a))
    · exact Or.inr (Or.inr (hfs.trans a))
  · intro hp
    rw [hplay] at hp
    rw [hfs]
    exact h.playingFs hp
  · intro hm
    rw [hmode] at hm
    exact hcs.trans (h.modeNone hm)
  · intro hv hl
    rw [hvis] at hv
    rw [hload] at hl
    exact hmode.trans (h.fileVis hv hl)
  · intro i hi
    rw [liveConn_congr s t hstop hed] at hi
    obtain ⟨a, b⟩ := h.lcOk i hi
    refine ⟨hcs.trans a, ?_⟩
    rcases b with b | b
    · exact Or.inl (hrs.trans b)
    · exact Or.inr (hfs.trans b)
  · intro e he hv
    rw [hed] at he
    exact h.visOk e he hv

theorem inv_connect (s : St) (h : Inv s) : Inv (connectAudioPipeline s) := by
  obtain ⟨hcs, hrs, hfs, hmode, hstop, hplay, hvisb, hload, hinit, hctx, hen, hvol,
    hact, hrep, hplay2, hclk, hprog, hdur, hint, hdisp, hband⟩ := connect_unch s
  rcases hc : s.currentSource with _ | c
  · rw [connect_id_of_none s hc]; exact h
  · rcases hni : s.nodesInit with _ | _
    · rw [connect_id_of_notInit s c hc hni]; exact h
    · constructor
      · intro _ _
        rw [connect_gain s c hc hni]
        exact (gainSpec_congr s _ hen hvol).symm
      · intro hl
        rw [hload] at hl
        rw [hinit, hctx]
        exact h.loadedInit hl
      · intro r hr
        rw [hrs] at hr
        obtain ⟨a, b, c2, d⟩ := h.rsOk r hr
        exact ⟨hmode.trans a, hcs.trans b, hact.trans c2, hvisb.trans d⟩
      · intro f hf
        rw [hfs] at hf
        obtain ⟨a, b, c2⟩ := h.fsOk f hf
        exact ⟨hmode.trans a, hcs.trans b, hplay.trans c2⟩
      · intro c2 hc2
        rw [hcs] at hc2
        rcases h.csOk c2 hc2 with a | a | a
        · exact Or.inl (by rw [hstop]; exact a)
        · exact Or.inr (Or.inl (hrs.trans a))
        · exact Or.inr (Or.inr (hfs.trans a))
      · intro hp
        rw [hplay] at hp
        rw [hfs]
        exact h.playingFs hp
      · intro hm
        rw [hmode] at hm
        exact hcs.trans (h.modeNone hm)
      · intro hv hl
        rw [hvisb] at hv
        rw [hload] at hl
        exact hmode.trans (h.fileVis hv hl)
      · intro i hli
        rcases connect_live s i hli with hpre | hisc
        · obtain ⟨a, b⟩ := h.lcOk i hpre
          refine ⟨hcs.trans a, ?_⟩
          rcases b with b | b
          · exact Or.inl (hrs.trans b)
          · exact Or.inr (hfs.trans b)
        · refine ⟨hcs.trans hisc, ?_⟩
          rcases h.csOk i hisc with a | a | a
          · exact absurd (by rw [hstop]; exact a) hli.1
          · exact Or.inl (hrs.trans a)
          · exact Or.inr (hfs.trans a)
      · exact connect_visOk s h.visOk

theorem inv_bandChange (s : St) (h : Inv s) (b p : Option (ℚ × ℚ)) :
    Inv { s with selectedBand := b, selectedBandPixels := p } :=
  inv_transfer s _ h rfl rfl rfl rfl rfl rfl rfl rfl rfl rfl rfl rfl rfl rfl rfl

theorem inv_clearBand (s : St) (h : Inv s) : Inv (clearBand s) := by
  unfold clearBand
  exact inv_connect _ (inv_bandChange s h _ _)

theorem inv_mouseUp (a b w lo hi : ℚ) (s : St) (h : Inv s) :
    Inv (mouseUpFn a b w lo hi s) := by
  unfold mouseUpFn
  dsimp only
  split_ifs with hcond
  · exact inv_connect _ (inv_bandChange s h _ _)
  · exact inv_clearBand s h

theorem inv_toggleOutput (s : St) (h : Inv s) : Inv (toggleOutput s) := by
  unfold toggleOutput updateCurrentVolume
  dsimp only
  split_ifs with hg
  · constructor
    · intro _ _
      rfl
    · exact h.loadedInit
    · exact h.rsOk
    · exact h.fsOk
    · exact h.csOk
    · exact h.playingFs
    · exact h.modeNone
    · exact h.fileVis
    · exact h.lcOk
    · exact h.visOk
  · constructor
    · intro h1 h2
      exact absurd ⟨h1, h2⟩ hg
    · exact h.loadedInit
    · exact h.rsOk
    · exact h.fsOk
    · exact h.csOk
    · exact h.playingFs
    · exact h.modeNone
    · exact h.fileVis
    · exact h.lcOk
    · exact h.visOk

theorem inv_setVolume (p : ℚ) (s : St) (h : Inv s) : Inv (setVolume p s) := by
  unfold setVolume updateCurrentVolume
  dsimp only
  split_ifs with hg
  · constructor
    · intro _ _
      rfl
    · exact h.loadedInit
    · exact h.rsOk
    · exact h.fsOk
    · exact h.csOk
    · exact h.playingFs
    · exact h.modeNone
    · exact h.fileVis
    · exact h.lcOk
    · exact h.visOk
  · constructor
    · intro h1 h2
      exact absurd ⟨h1, h2⟩ hg
    · exact h.loadedInit
    · exact h.rsOk
    · exact h.fsOk
    · exact h.csOk
    · exact h.playingFs
    · exact h.modeNone
    · exact h.fileVis
    · exact h.lcOk
    · exact h.visOk

theorem inv_toggleRepeat (s : St) (h : Inv s) : Inv (toggleRepeat s) := by
  unfold toggleRepeat
  dsimp only
  split_ifs <;>
    exact inv_transfer s _ h rfl rfl rfl rfl rfl rfl rfl rfl rfl rfl rfl rfl rfl rfl rfl

theorem inv_advance (dt : ℚ) (s : St) (h : Inv s) :
    Inv { s with clock := s.clock + dt } :=
  inv_transfer s _ h rfl rfl rfl rfl rfl rfl rfl rfl rfl rfl rfl rfl rfl rfl rfl

theorem inv_killFilePlus (s : St) (h : Inv s) (f : ℕ) (hfs : s.fileSource = Option.some f)
    (b1 : Bool) (tp dp : ℚ) :
    Inv { killFileNode f s with isPlaying := false, intervalActive := b1,
                                timelineProgress := tp, displayedTime := dp } := by
  constructor
  · exact h.gainOk
  · exact h.loadedInit
  · intro r hr
    exact h.rsOk r hr
  · intro g hg
    exact Option.noConfusion hg
  · intro c hc
    rcases h.csOk c hc with a | a | a
    · exact Or.inl (Finset.mem_insert_of_mem a)
    · exact Or.inr (Or.inl a)
    · rw [hfs] at a
      have hfc := Option.some.inj a
      rw [← hfc]
      exact Or.inl (Finset.mem_insert_self f _)
  · intro hp
    exact Bool.noConfusion hp
  · exact h.modeNone
  · exact h.fileVis
  · intro i hi
    unfold liveConn at hi
    obtain ⟨h1, h2⟩ := hi
    have hif : i ≠ f := by
      intro he
      exact h1 (by rw [he]; exact Finset.mem_insert_self f _)
    have h1' : i ∉ s.stopped := fun hc => h1 (Finset.mem_insert_of_mem hc)
    have h2' : (NodeRef.src i, NodeRef.gain) ∈ s.edges ∨
        (NodeRef.src i, NodeRef.hp) ∈ s.edges := by
      rcases h2 with h2 | h2
      · exact Or.inl (Finset.mem_filter.mp h2).1
      · exact Or.inr (Finset.mem_filter.mp h2).1
    obtain ⟨a, b⟩ := h.lcOk i ⟨h1', h2'⟩
    refine ⟨a, ?_⟩
    rcases b with b | b
    · exact Or.inl b
    · rw [hfs] at b
      exact absurd (Option.some.inj b).symm hif
  · intro e he hv
    exact h.visOk e (Finset.mem_filter.mp he).1 hv

theorem inv_pauseFile (s : St) (h : Inv s) : Inv (pauseFile s) := by
  unfold pauseFile
  split_ifs with hg
  · obtain ⟨hso, -⟩ := hg
    rcases hfs : s.fileSource with _ | f
    · rw [hfs] at hso
      simp at hso
    · simp only [hfs, Option.getD_some]
      exact inv_killFilePlus s h f hfs false s.timelineProgress s.displayedTime
  · exact h

theorem inv_stopFile (s : St) (h : Inv s) : Inv (stopFile s) := by
  unfold stopFile
  rcases hfs : s.fileSource with _ | f
  · exact inv_transfer s _ h rfl rfl rfl rfl rfl rfl rfl rfl rfl
      (by rw [hfs]) rfl rfl (by
        rcases hp : s.isPlaying with _ | _
        · rfl
        · have := h.playingFs hp
          rw [hfs] at this
          simp at this) rfl rfl
  · exact inv_killFilePlus s h f hfs false 0 0

theorem inv_tickFn (s : St) (h : Inv s) : Inv (tickFn s) := by
  unfold tickFn
  dsimp only
  split_ifs with h1 h2
  · have hinv : Inv { s with
        timelineProgress := min ((s.clock - s.playStartTime + s.pausedTime) / s.fileDuration) 1 * 100,
        displayedTime := s.clock - s.playStartTime + s.pausedTime } :=
      inv_transfer s _ h rfl rfl rfl rfl rfl rfl rfl rfl rfl rfl rfl rfl rfl rfl rfl
    exact inv_stopFile _ hinv
  · exact inv_transfer s _ h rfl rfl rfl rfl rfl rfl rfl rfl rfl rfl rfl rfl rfl rfl rfl
  · exact h

theorem inv_endedFn (s : St) (h : Inv s) : Inv (endedFn s) := by
  unfold endedFn
  split_ifs <;> first | exact h | exact inv_pauseFile s h

theorem stopCurrentInput_edges_sub (s : St) :
    ∀ e ∈ (stopCurrentInput s).edges, e ∈ s.edges := by
  intro e he
  simp only [stopCurrentInput, killFileNode] at he
  split_ifs at he
  · exact he
  · exact (Finset.mem_filter.mp he).1
  · exact he

theorem inv_stopLike (s : St) (h : Inv s) (hvis : s.fileUIVisible = false) (b : Bool) :
    Inv { stopCurrentInput s with isRealtimeActive := b } := by
  obtain ⟨uinit, uctx, ugain, uen, uvol, uload, uvisb, uact, udur, uband, uclk, uprog,
    udisp, unext⟩ := stopCurrentInput_unch s
  constructor
  · intro _ h2
    have h2' : (stopCurrentInput s).currentSource.isSome = true := h2
    rw [stopCurrentInput_cs] at h2'
    simp at h2'
  · intro hl
    have hl' : (stopCurrentInput s).fileLoaded = true := hl
    rw [uload] at hl'
    obtain ⟨a, b2⟩ := h.loadedInit hl'
    exact ⟨uinit.trans a, uctx.trans b2⟩
  · intro r hr
    have hr' : (stopCurrentInput s).realtimeSource = Option.some r := hr
    rw [stopCurrentInput_rs s h] at hr'
    exact Option.noConfusion hr'
  · intro f hf
    have hf' : (stopCurrentInput s).fileSource = Option.some f := hf
    rw [stopCurrentInput_fs s h] at hf'
    exact Option.noConfusion hf'
  · intro c hc
    have hc' : (stopCurrentInput s).currentSource = Option.some c := hc
    rw [stopCurrentInput_cs] at hc'
    exact Option.noConfusion hc'
  · intro hp
    have hp' : (stopCurrentInput s).isPlaying = true := hp
    rw [stopCurrentInput_notPlaying s h] at hp'
    exact Bool.noConfusion hp'
  · intro _
    exact stopCurrentInput_cs s
  · intro hv
    have hv' : (stopCurrentInput s).fileUIVisible = true := hv
    rw [uvisb, hvis] at hv'
    exact Bool.noConfusion hv'
  · intro i hi
    have hi' : liveConn (stopCurrentInput s) i := hi
    exact absurd hi' (stopCurrentInput_noLive s h i)
  · intro e he hv
    have he' : e ∈ (stopCurrentInput s).edges := he
    exact h.visOk e (stopCurrentInput_edges_sub s e he') hv

theorem inv_stop_noVis (s : St) (h : Inv s) (hvis : s.fileUIVisible = false) :
    Inv (stopCurrentInput s) :=
  inv_stopLike s h hvis (stopCurrentInput s).isRealtimeActive

theorem inv_ctxTrue (s : St) (h : Inv s) : Inv { s with hasCtx := true } := by
  constructor
  · exact h.gainOk
  · intro hl
    exact ⟨(h.loadedInit hl).1, rfl⟩
  · exact h.rsOk
  · exact h.fsOk
  · exact h.csOk
  · exact h.playingFs
  · exact h.modeNone
  · exact h.fileVis
  · exact h.lcOk
  · exact h.visOk

theorem inv_initAudioNodes (s : St) (h : Inv s) : Inv (initAudioNodes s) := by
  unfold initAudioNodes
  split_ifs with hn
  · exact h
  · constructor
    · intro _ _
      rfl
    · intro hl
      exact ⟨rfl, (h.loadedInit hl).2⟩
    · exact h.rsOk
    · exact h.fsOk
    · exact h.csOk
    · exact h.playingFs
    · exact h.modeNone
    · exact h.fileVis
    · exact h.lcOk
    · exact h.visOk

theorem inv_stopAudio (s : St) (h : Inv s) (hvis : s.fileUIVisible = false) :
    Inv (stopAudio s) := by
  unfold stopAudio
  dsimp only
  split_ifs with hm
  · exact inv_stopLike s h hvis false
  · constructor
    · exact h.gainOk
    · exact h.loadedInit
    · intro r hr
      exact absurd (h.rsOk r hr).1 hm
    · exact h.fsOk
    · exact h.csOk
    · exact h.playingFs
    · exact h.modeNone
    · exact h.fileVis
    · intro i hi
      have hi' : liveConn s i := hi
      obtain ⟨a, b⟩ := h.lcOk i hi'
      exact ⟨a, b⟩
    · exact h.visOk

theorem switchRt_tail (t : St) (hp : t.isPlaying = false) (hm : t.inputMode = Mode.realtime)
    (hn : t.nodesInit = true) :
    switchToRealtimeMode t = { t with fileUIVisible := false, gainValue := gainSpec t } := by
  unfold switchToRealtimeMode
  simp [hp, hm, hn, gainSpec]

theorem inv_start_core (t3 : St) (r : ℕ)
    (hcs : t3.currentSource = Option.some r) (hrs : t3.realtimeSource = Option.some r)
    (hfs : t3.fileSource = Option.none) (hpl : t3.isPlaying = false)
    (hni : t3.nodesInit = true) (hctx : t3.hasCtx = true)
    (hmode : t3.inputMode = Mode.realtime)
    (hnl : ∀ i, ¬ liveConn t3 i)
    (hvok : ∀ e ∈ t3.edges, e.2 = NodeRef.vis → ∃ i, e.1 = NodeRef.src i) :
    Inv { switchToRealtimeMode (connectAudioPipeline t3) with isRealtimeActive := true } := by
  obtain ⟨ucs, urs, ufs, umode, ustop, uplay, uvisb, uload, uinit, uctx, uen, uvol,
    uact, urep, uplay2, uclk, uprog, udur, uint, udisp, uband⟩ := connect_unch t3
  rw [switchRt_tail (connectAudioPipeline t3) (uplay.trans hpl) (umode.trans hmode)
    (uinit.trans hni)]
  constructor
  · intro _ _
    rfl
  · intro _
    exact ⟨uinit.trans hni, uctx.trans hctx⟩
  · intro r' hr'
    have hr2 : (connectAudioPipeline t3).realtimeSource = Option.some r' := hr'
    rw [urs, hrs] at hr2
    have hrr : r = r' := Option.some.inj hr2
    refine ⟨umode.trans hmode, ?_, rfl, rfl⟩
    have : (connectAudioPipeline t3).currentSource = Option.some r := ucs.trans hcs
    rw [← hrr]
    exact this
  · intro g hg
    have hg' : (connectAudioPipeline t3).fileSource = Option.some g := hg
    rw [ufs, hfs] at hg'
    exact Option.noConfusion hg'
  · intro c hc
    have hc' : (connectAudioPipeline t3).currentSource = Option.some c := hc
    rw [ucs, hcs] at hc'
    have hrc : r = c := Option.some.inj hc'
    refine Or.inr (Or.inl ?_)
    have : (connectAudioPipeline t3).realtimeSource = Option.some r := urs.trans hrs
    rw [← hrc]
    exact this
  · intro hp'
    have hp2 : (connectAudioPipeline t3).isPlaying = true := hp'
    rw [uplay, hpl] at hp2
    exact Bool.noConfusion hp2
  · intro hm'
    have hm2 : (connectAudioPipeline t3).inputMode = Mode.none := hm'
    rw [umode, hmode] at hm2
    exact Mode.noConfusion hm2
  · intro hv _
    exact Bool.noConfusion hv
  · intro i hi
    have hi' : liveConn (connectAudioPipeline t3) i := hi
    rcases connect_live t3 i hi' with hpre | hcsi
    · exact absurd hpre (hnl i)
    · rw [hcs] at hcsi
      have hir : r = i := Option.some.inj hcsi
      constructor
      · have : (connectAudioPipeline t3).currentSource = Option.some r := ucs.trans hcs
        rw [← hir]
        exact this
      · refine Or.inl ?_
        have : (connectAudioPipeline t3).realtimeSource = Option.some r := urs.trans hrs
        rw [← hir]
        exact this
  · intro e he hv
    have he' : e ∈ (connectAudioPipeline t3).edges := he
    exact connect_visOk t3 hvok e he' hv

theorem inv_startAudio (s : St) (h : Inv s) (hvis : s.fileUIVisible = false) :
    Inv (startAudio s) := by
  have h1 : Inv (stopCurrentInput s) := inv_stop_noVis s h hvis
  have h1' : Inv { stopCurrentInput s with hasCtx := true } := inv_ctxTrue _ h1
  set t2 : St := initAudioNodes { stopCurrentInput s with hasCtx := true } with ht2
  have h2 : Inv t2 := inv_initAudioNodes _ h1'
  obtain ⟨u1, u2, u3, u4, u5, u6, u7, u8, u9, u10, u11, u12, u13, u14, u15, u16, u17⟩ :=
    initAudioNodes_unch { stopCurrentInput s with hasCtx := true }
  have hfs2 : t2.fileSource = Option.none := by
    rw [ht2, u3]
    exact stopCurrentInput_fs s h
  have hpl2 : t2.isPlaying = false := by
    rw [ht2, u7]
    exact stopCurrentInput_notPlaying s h
  have hni2 : t2.nodesInit = true := by
    rw [ht2]
    exact initAudioNodes_init _
  have hctx2 : t2.hasCtx = true := by
    rw [ht2, u10]
  have hnl2 : ∀ i, ¬ liveConn t2 i := by
    intro i hi
    refine stopCurrentInput_noLive s h i ?_
    unfold liveConn at hi ⊢
    rw [ht2, u5, u6] at hi
    exact hi
  exact inv_start_core
    { t2 with realtimeSource := Option.some t2.nextId, nextId := t2.nextId + 1,
              kinds := (t2.nextId, SrcKind.mic) :: t2.kinds,
              currentSource := Option.some t2.nextId, inputMode := Mode.realtime }
    t2.nextId rfl rfl hfs2 hpl2 hni2 hctx2 rfl
    (by
      intro i hi
      refine hnl2 i ?_
      unfold liveConn at hi ⊢
      exact hi)
    (fun e he hv => h2.visOk e he hv)

theorem inv_rs_none_of_not_rt (s : St) (h : Inv s) (hm : s.inputMode ≠ Mode.realtime) :
    s.realtimeSource = Option.none := by
  rcases hr : s.realtimeSource with _ | r
  · rfl
  · exact absurd (h.rsOk r hr).1 hm

theorem inv_rs_none_of_vis (s : St) (h : Inv s) (hvis : s.fileUIVisible = true) :
    s.realtimeSource = Option.none := by
  rcases hr : s.realtimeSource with _ | r
  · rfl
  · have := (h.rsOk r hr).2.2.2
    rw [hvis] at this
    exact Bool.noConfusion this

theorem inv_fs_none_of_not_file (s : St) (h : Inv s) (hm : s.inputMode ≠ Mode.file) :
    s.fileSource = Option.none := by
  rcases hf : s.fileSource with _ | f
  · rfl
  · exact absurd (h.fsOk f hf).1 hm

theorem inv_switchRtA (s : St) (h : Inv s) (f : ℕ) (hfs : s.fileSource = Option.some f)
    (hrs : s.realtimeSource = Option.none) (g : ℚ) :
    Inv { killFileNode f s with isPlaying := false, intervalActive := false, fileUIVisible := false, currentSource := Option.none, inputMode := Mode.realtime, gainValue := g } := by
  constructor
  · intro _ hcs
    exact absurd hcs (by simp)
  · exact h.loadedInit
  · intro r hr
    have hr2 : s.realtimeSource = Option.some r := hr
    rw [hrs] at hr2
    exact Option.noConfusion hr2
  · intro g2 hg
    exact Option.noConfusion hg
  · intro c hc
    exact Option.noConfusion hc
  · intro hp
    exact Bool.noConfusion hp
  · intro _
    rfl
  · intro hv
    exact Bool.noConfusion hv
  · intro i hi
    exfalso
    unfold liveConn at hi
    obtain ⟨h1, h2⟩ := hi
    have hif : i ≠ f := by
      intro he
      exact h1 (by rw [he]; exact Finset.mem_insert_self f _)
    have hpre : liveConn s i := by
      refine ⟨fun hc => h1 (Finset.mem_insert_of_mem hc), ?_⟩
      rcases h2 with h2 | h2
      · exact Or.inl (Finset.mem_filter.mp h2).1
      · exact Or.inr (Finset.mem_filter.mp h2).1
    obtain ⟨-, b⟩ := h.lcOk i hpre
    rcases b with b | b
    · rw [hrs] at b
      exact Option.noConfusion b
    · rw [hfs] at b
      exact hif (Option.some.inj b).symm
  · intro e he hv
    exact h.visOk e (Finset.mem_filter.mp he).1 hv

theorem inv_switchRtB2 (s : St) (h : Inv s) (hrs : s.realtimeSource = Option.none)
    (hfs : s.fileSource = Option.none) (g : ℚ) :
    Inv { s with fileUIVisible := false, currentSource := Option.none, inputMode := Mode.realtime, gainValue := g } := by
  constructor
  · intro _ hcs
    exact absurd hcs (by simp)
  · exact h.loadedInit
  · intro r hr
    have hr2 : s.realtimeSource = Option.some r := hr
    rw [hrs] at hr2
    exact Option.noConfusion hr2
  · intro g2 hg
    have hg2 : s.fileSource = Option.some g2 := hg
    rw [hfs] at hg2
    exact Option.noConfusion hg2
  · intro c hc
    exact Option.noConfusion hc
  · intro hp
    have := h.playingFs hp
    rw [hfs] at this
    exact Bool.noConfusion this
  · intro _
    rfl
  · intro hv
    exact Bool.noConfusion hv
  · intro i hi
    exfalso
    have hpre : liveConn s i := ⟨hi.1, hi.2⟩
    obtain ⟨-, b⟩ := h.lcOk i hpre
    rcases b with b | b
    · rw [hrs] at b
      exact Option.noConfusion b
    · rw [hfs] at b
      exact Option.noConfusion b
  · exact h.visOk

theorem inv_switchRt (s : St) (h : Inv s) : Inv (switchToRealtimeMode s) := by
  by_cases hA : (s.isPlaying = true ∧ s.inputMode = Mode.file)
  · obtain ⟨hpl, hm⟩ := hA
    obtain ⟨f, hfs⟩ := Option.isSome_iff_exists.mp (h.playingFs hpl)
    have hrs : s.realtimeSource = Option.none :=
      inv_rs_none_of_not_rt s h (by rw [hm]; intro hcon; exact Mode.noConfusion hcon)
    have heq : switchToRealtimeMode s =
        (if s.nodesInit = true
          then { killFileNode f s with isPlaying := false, intervalActive := false, fileUIVisible := false, currentSource := Option.none, inputMode := Mode.realtime, gainValue := gainSpec s }
          else { killFileNode f s with isPlaying := false, intervalActive := false, fileUIVisible := false, currentSource := Option.none, inputMode := Mode.realtime }) := by
      unfold switchToRealtimeMode stopCurrentInput
      simp [hpl, hm, hfs, hrs, killFileNode, gainSpec]
    rw [heq]
    split_ifs
    · exact inv_switchRtA s h f hfs hrs (gainSpec s)
    · exact inv_switchRtA s h f hfs hrs s.gainValue
  · by_cases hm : s.inputMode = Mode.realtime
    · have heq : switchToRealtimeMode s =
          (if s.nodesInit = true
            then { s with fileUIVisible := false, gainValue := gainSpec s }
            else { s with fileUIVisible := false }) := by
        unfold switchToRealtimeMode
        simp [hA, hm, gainSpec]
      rw [heq]
      have hcore : ∀ g : ℚ, (s.nodesInit = true → s.currentSource.isSome = true →
          g = gainSpec s) → Inv { s with fileUIVisible := false, gainValue := g } := by
        intro g hg
        constructor
        · exact hg
        · exact h.loadedInit
        · intro r hr
          obtain ⟨a, b, c, -⟩ := h.rsOk r hr
          exact ⟨a, b, c, rfl⟩
        · exact h.fsOk
        · exact h.csOk
        · exact h.playingFs
        · exact h.modeNone
        · intro hv
          exact Bool.noConfusion hv
        · exact h.lcOk
        · exact h.visOk
      split_ifs with hni
      · exact hcore (gainSpec s) (fun _ _ => rfl)
      · exact hcore s.gainValue (fun h1 _ => absurd h1 hni)
    · have hrs : s.realtimeSource = Option.none := inv_rs_none_of_not_rt s h hm
      have hfs : s.fileSource = Option.none := by
        rcases hf : s.fileSource with _ | f
        · rfl
        · obtain ⟨a, -, c⟩ := h.fsOk f hf
          exact absurd ⟨c, a⟩ hA
      have heq : switchToRealtimeMode s =
          (if s.nodesInit = true
            then { s with fileUIVisible := false, currentSource := Option.none, inputMode := Mode.realtime, gainValue := gainSpec s }
            else { s with fileUIVisible := false, currentSource := Option.none, inputMode := Mode.realtime }) := by
        unfold switchToRealtimeMode stopCurrentInput
        simp [hA, hm, hrs, hfs, gainSpec]
      rw [heq]
      split_ifs
      · exact inv_switchRtB2 s h hrs hfs (gainSpec s)
      · exact inv_switchRtB2 s h hrs hfs s.gainValue

/-- Pre-state shape for entering file mode: no realtime source remains. -/
structure InvPre (t : St) : Prop where
  gainOk : t.nodesInit = true → t.currentSource.isSome → t.gainValue = gainSpec t
  loadedInit : t.fileLoaded = true → t.nodesInit = true ∧ t.hasCtx = true
  rsNone : t.realtimeSource = Option.none
  fsOk : ∀ f, t.fileSource = Option.some f →
    t.inputMode = Mode.file ∧ t.currentSource = Option.some f ∧ t.isPlaying = true
  csOk : ∀ c, t.currentSource = Option.some c →
    c ∈ t.stopped ∨ t.fileSource = Option.some c
  playingFs : t.isPlaying = true → t.fileSource.isSome
  modeNone : t.inputMode = Mode.none → t.currentSource = Option.none
  lcOk : ∀ i, liveConn t i → t.currentSource = Option.some i ∧ t.fileSource = Option.some i
  visOk : ∀ e ∈ t.edges, e.2 = NodeRef.vis → ∃ i, e.1 = NodeRef.src i

theorem invPre_of_inv (s : St) (h : Inv s)
    (hA : ¬(s.isRealtimeActive = true ∧ s.inputMode = Mode.realtime)) : InvPre s := by
  have hrs : s.realtimeSource = Option.none := by
    rcases hr : s.realtimeSource with _ | r
    · rfl
    · obtain ⟨a, -, c, -⟩ := h.rsOk r hr
      exact absurd ⟨c, a⟩ hA
  constructor
  · exact h.gainOk
  · exact h.loadedInit
  · exact hrs
  · exact h.fsOk
  · intro c hc
    rcases h.csOk c hc with a | a | a
    · exact Or.inl a
    · rw [hrs] at a
      exact Option.noConfusion a
    · exact Or.inr a
  · exact h.playingFs
  · exact h.modeNone
  · intro i hi
    obtain ⟨a, b⟩ := h.lcOk i hi
    rcases b with b | b
    · rw [hrs] at b
      exact Option.noConfusion b
    · exact ⟨a, b⟩
  · exact h.visOk

theorem invPre_stopActive (s : St) (h : Inv s) :
    InvPre { stopCurrentInput s with isRealtimeActive := false } := by
  obtain ⟨uinit, uctx, ugain, uen, uvol, uload, uvisb, uact, udur, uband, uclk, uprog,
    udisp, unext⟩ := stopCurrentInput_unch s
  constructor
  · intro _ h2
    have h2' : (stopCurrentInput s).currentSource.isSome = true := h2
    rw [stopCurrentInput_cs] at h2'
    simp at h2'
  · intro hl
    have hl' : (stopCurrentInput s).fileLoaded = true := hl
    rw [uload] at hl'
    obtain ⟨a, b⟩ := h.loadedInit hl'
    exact ⟨uinit.trans a, uctx.trans b⟩
  · exact stopCurrentInput_rs s h
  · intro f hf
    have hf' : (stopCurrentInput s).fileSource = Option.some f := hf
    rw [stopCurrentInput_fs s h] at hf'
    exact Option.noConfusion hf'
  · intro c hc
    have hc' : (stopCurrentInput s).currentSource = Option.some c := hc
    rw [stopCurrentInput_cs] at hc'
    exact Option.noConfusion hc'
  · intro hq
    have hq' : (stopCurrentInput s).isPlaying = true := hq
    rw [stopCurrentInput_notPlaying s h] at hq'
    exact Bool.noConfusion hq'
  · intro _
    exact stopCurrentInput_cs s
  · intro i hi
    have hi' : liveConn (stopCurrentInput s) i := hi
    exact absurd hi' (stopCurrentInput_noLive s h i)
  · intro e he hv
    have he' : e ∈ (stopCurrentInput s).edges := he
    exact h.visOk e (stopCurrentInput_edges_sub s e he') hv

theorem invPre_loadMid (s : St) (h : Inv s) (d : ℚ) :
    InvPre (initAudioNodes { stopCurrentInput s with hasCtx := true, fileLoaded := true, fileDuration := d }) := by
  obtain ⟨i1, i2, i3, i4, i5, i6, i7, i8, i9, i10, i11, i12, i13, i14, i15, i16, i17⟩ :=
    initAudioNodes_unch { stopCurrentInput s with hasCtx := true, fileLoaded := true, fileDuration := d }
  constructor
  · intro _ h2
    rw [i1] at h2
    have h2' : (stopCurrentInput s).currentSource.isSome = true := h2
    rw [stopCurrentInput_cs] at h2'
    simp at h2'
  · intro _
    refine ⟨initAudioNodes_init _, ?_⟩
    rw [i10]
  · rw [i2]
    exact stopCurrentInput_rs s h
  · intro f hf
    rw [i3] at hf
    have hf' : (stopCurrentInput s).fileSource = Option.some f := hf
    rw [stopCurrentInput_fs s h] at hf'
    exact Option.noConfusion hf'
  · intro c hc
    rw [i1] at hc
    have hc' : (stopCurrentInput s).currentSource = Option.some c := hc
    rw [stopCurrentInput_cs] at hc'
    exact Option.noConfusion hc'
  · intro hq
    rw [i7] at hq
    have hq' : (stopCurrentInput s).isPlaying = true := hq
    rw [stopCurrentInput_notPlaying s h] at hq'
    exact Bool.noConfusion hq'
  · intro _
    rw [i1]
    exact stopCurrentInput_cs s
  · intro i hi
    unfold liveConn at hi
    rw [i5, i6] at hi
    have hi' : liveConn (stopCurrentInput s) i := hi
    exact absurd hi' (stopCurrentInput_noLive s h i)
  · intro e he hv
    rw [i6] at he
    have he' : e ∈ (stopCurrentInput s).edges := he
    exact h.visOk e (stopCurrentInput_edges_sub s e he') hv

theorem stopAudio_act (s : St) : (stopAudio s).isRealtimeActive = false := rfl

theorem switchFile_decomp (s : St)
    (hA : s.isRealtimeActive = true ∧ s.inputMode = Mode.realtime) :
    switchToFileMode s = switchToFileMode (stopAudio s) := by
  unfold switchToFileMode
  simp [hA.1, hA.2, stopAudio_act]

theorem inv_switchFile_from (t : St) (hp : InvPre t)
    (hA : ¬(t.isRealtimeActive = true ∧ t.inputMode = Mode.realtime)) :
    Inv (switchToFileMode t) := by
  by_cases hld : t.fileLoaded = true
  · have hni : t.nodesInit = true := (hp.loadedInit hld).1
    by_cases hmf : t.inputMode = Mode.file
    · have heq : switchToFileMode t = { t with fileUIVisible := true, gainValue := gainSpec t } := by
        unfold switchToFileMode
        simp [hA, hld, hmf, hni, gainSpec]
      rw [heq]
      constructor
      · intro _ _
        rfl
      · exact hp.loadedInit
      · intro r hr
        have hr2 : t.realtimeSource = Option.some r := hr
        rw [hp.rsNone] at hr2
        exact Option.noConfusion hr2
      · exact hp.fsOk
      · intro c hc
        rcases hp.csOk c hc with a | a
        · exact Or.inl a
        · exact Or.inr (Or.inr a)
      · exact hp.playingFs
      · exact hp.modeNone
      · intro _ _
        exact hmf
      · intro i hi
        obtain ⟨a, b⟩ := hp.lcOk i hi
        exact ⟨a, Or.inr b⟩
      · exact hp.visOk
    · have hfs : t.fileSource = Option.none := by
        rcases hf : t.fileSource with _ | f
        · rfl
        · exact absurd (hp.fsOk f hf).1 hmf
      have hpl : t.isPlaying = false := by
        rcases hq : t.isPlaying with _ | _
        · rfl
        · have := hp.playingFs hq
          rw [hfs] at this
          exact Bool.noConfusion this
      have heq : switchToFileMode t = { t with fileUIVisible := true, currentSource := Option.none, inputMode := Mode.file, gainValue := gainSpec t } := by
        unfold switchToFileMode stopCurrentInput
        simp [hA, hld, hmf, hni, hp.rsNone, hfs, gainSpec]
      rw [heq]
      constructor
      · intro _ hcs
        exact absurd hcs (by simp)
      · exact hp.loadedInit
      · intro r hr
        have hr2 : t.realtimeSource = Option.some r := hr
        rw [hp.rsNone] at hr2
        exact Option.noConfusion hr2
      · intro g hg
        have hg2 : t.fileSource = Option.some g := hg
        rw [hfs] at hg2
        exact Option.noConfusion hg2
      · intro c hc
        exact Option.noConfusion hc
      · intro hq
        have hq2 : t.isPlaying = true := hq
        rw [hpl] at hq2
        exact Bool.noConfusion hq2
      · intro _
        rfl
      · intro _ _
        rfl
      · intro i hi
        exfalso
        have hi2 : liveConn t i := ⟨hi.1, hi.2⟩
        obtain ⟨-, b⟩ := hp.lcOk i hi2
        rw [hfs] at b
        exact Option.noConfusion b
      · exact hp.visOk
  · have heq : switchToFileMode t = { t with fileUIVisible := true } := by
      unfold switchToFileMode
      simp [hA, hld]
    rw [heq]
    constructor
    · exact hp.gainOk
    · intro hl
      have hl2 : t.fileLoaded = true := hl
      exact absurd hl2 hld
    · intro r hr
      have hr2 : t.realtimeSource = Option.some r := hr
      rw [hp.rsNone] at hr2
      exact Option.noConfusion hr2
    · exact hp.fsOk
    · intro c hc
      rcases hp.csOk c hc with a | a
      · exact Or.inl a
      · exact Or.inr (Or.inr a)
    · exact hp.playingFs
    · exact hp.modeNone
    · intro _ hl
      have hl2 : t.fileLoaded = true := hl
      exact absurd hl2 hld
    · intro i hi
      obtain ⟨a, b⟩ := hp.lcOk i hi
      exact ⟨a, Or.inr b⟩
    · exact hp.visOk

theorem inv_switchFile (s : St) (h : Inv s) : Inv (switchToFileMode s) := by
  by_cases hA : (s.isRealtimeActive = true ∧ s.inputMode = Mode.realtime)
  · rw [switchFile_decomp s hA]
    have hsa : stopAudio s = { stopCurrentInput s with isRealtimeActive := false } := by
      unfold stopAudio
      simp [hA.2]
    rw [hsa]
    exact inv_switchFile_from _ (invPre_stopActive s h) (by simp)
  · exact inv_switchFile_from s (invPre_of_inv s h hA) hA

theorem inv_loadFile (d : ℚ) (s : St) (h : Inv s) : Inv (loadFile d s) := by
  unfold loadFile
  dsimp only
  have hside : ¬((initAudioNodes { stopCurrentInput s with hasCtx := true, fileLoaded := true, fileDuration := d }).isRealtimeActive = true ∧ (initAudioNodes { stopCurrentInput s with hasCtx := true, fileLoaded := true, fileDuration := d }).inputMode = Mode.realtime) := by
    rintro ⟨-, hb⟩
    obtain ⟨i1, i2, i3, i4, i5, i6, i7, i8, i9, i10, i11, i12, i13, i14, i15, i16, i17⟩ :=
      initAudioNodes_unch { stopCurrentInput s with hasCtx := true, fileLoaded := true, fileDuration := d }
    rw [i4] at hb
    have hb2 : (stopCurrentInput s).inputMode = Mode.realtime := hb
    rw [stopCurrentInput_mode] at hb2
    exact Mode.noConfusion hb2
  have hmain : Inv (switchToFileMode (initAudioNodes { stopCurrentInput s with hasCtx := true, fileLoaded := true, fileDuration := d })) :=
    inv_switchFile_from _ (invPre_loadMid s h d) hside
  exact inv_transfer _ _ hmain rfl rfl rfl rfl rfl rfl rfl rfl rfl rfl rfl rfl rfl rfl rfl

theorem inv_play_core (t2 : St) (f : ℕ)
    (hcs : t2.currentSource = Option.some f) (hfs : t2.fileSource = Option.some f)
    (hrs : t2.realtimeSource = Option.none) (hmode : t2.inputMode = Mode.file)
    (hni : t2.nodesInit = true) (hctx : t2.hasCtx = true)
    (hnl : ∀ i, ¬ liveConn t2 i)
    (hvok : ∀ e ∈ t2.edges, e.2 = NodeRef.vis → ∃ i, e.1 = NodeRef.src i)
    (x y z : ℚ) :
    Inv { connectAudioPipeline t2 with lastStartOffset := x, isPlaying := true, playStartTime := y, pausedTime := z, intervalActive := true } := by
  obtain ⟨ucs, urs, ufs, umode, ustop, uplay, uvisb, uload, uinit, uctx, uen, uvol,
    uact, urep, uplay2, uclk, uprog, udur, uint, udisp, uband⟩ := connect_unch t2
  constructor
  · intro _ _
    exact (connect_gain t2 f hcs hni).trans
      (gainSpec_congr t2 (connectAudioPipeline t2) uen uvol).symm
  · intro _
    exact ⟨uinit.trans hni, uctx.trans hctx⟩
  · intro r hr
    have hr2 : (connectAudioPipeline t2).realtimeSource = Option.some r := hr
    rw [urs, hrs] at hr2
    exact Option.noConfusion hr2
  · intro g hg
    have hg2 : (connectAudioPipeline t2).fileSource = Option.some g := hg
    rw [ufs, hfs] at hg2
    have hfg : f = g := Option.some.inj hg2
    refine ⟨umode.trans hmode, ?_, rfl⟩
    have : (connectAudioPipeline t2).currentSource = Option.some f := ucs.trans hcs
    rw [← hfg]
    exact this
  · intro c hc
    have hc2 : (connectAudioPipeline t2).currentSource = Option.some c := hc
    rw [ucs, hcs] at hc2
    have hfc : f = c := Option.some.inj hc2
    refine Or.inr (Or.inr ?_)
    have : (connectAudioPipeline t2).fileSource = Option.some f := ufs.trans hfs
    rw [← hfc]
    exact this
  · intro _
    show ((connectAudioPipeline t2).fileSource).isSome = true
    rw [ufs, hfs]
    rfl
  · intro hm
    have hm2 : (connectAudioPipeline t2).inputMode = Mode.none := hm
    rw [umode, hmode] at hm2
    exact Mode.noConfusion hm2
  · intro _ _
    exact umode.trans hmode
  · intro i hi
    have hi2 : liveConn (connectAudioPipeline t2) i := hi
    rcases connect_live t2 i hi2 with hpre | hcsi
    · exact absurd hpre (hnl i)
    · rw [hcs] at hcsi
      have hfi : f = i := Option.some.inj hcsi
      constructor
      · have : (connectAudioPipeline t2).currentSource = Option.some f := ucs.trans hcs
        rw [← hfi]
        exact this
      · refine Or.inr ?_
        have : (connectAudioPipeline t2).fileSource = Option.some f := ufs.trans hfs
        rw [← hfi]
        exact this
  · intro e he hv
    have he2 : e ∈ (connectAudioPipeline t2).edges := he
    exact connect_visOk t2 hvok e he2 hv

theorem inv_playFile (s : St) (h : Inv s) (hvis : s.fileUIVisible = true) :
    Inv (playFile s) := by
  unfold playFile
  split_ifs with hg
  · exact h
  · push_neg at hg
    obtain ⟨hload, hctx⟩ := hg
    have hmode : s.inputMode = Mode.file := h.fileVis hvis hload
    have hni : s.nodesInit = true := (h.loadedInit hload).1
    have hrs : s.realtimeSource = Option.none := inv_rs_none_of_vis s h hvis
    rcases hfso : s.fileSource with _ | f0
    · refine inv_play_core
        { s with fileSource := Option.some s.nextId, nextId := s.nextId + 1, kinds := (s.nextId, SrcKind.fileBuf) :: s.kinds, nodeLoop := s.isRepeating, currentSource := Option.some s.nextId }
        s.nextId rfl rfl hrs hmode hni hctx ?_ ?_ _ _ _
      · intro i hi
        have hi2 : liveConn s i := ⟨hi.1, hi.2⟩
        obtain ⟨-, b⟩ := h.lcOk i hi2
        rcases b with b | b
        · rw [hrs] at b
          exact Option.noConfusion b
        · rw [hfso] at b
          exact Option.noConfusion b
      · intro e he hv
        exact h.visOk e he hv
    · refine inv_play_core
        { killFileNode f0 s with fileSource := Option.some (killFileNode f0 s).nextId, nextId := (killFileNode f0 s).nextId + 1, kinds := ((killFileNode f0 s).nextId, SrcKind.fileBuf) :: (killFileNode f0 s).kinds, nodeLoop := (killFileNode f0 s).isRepeating, currentSource := Option.some (killFileNode f0 s).nextId }
        (killFileNode f0 s).nextId rfl rfl hrs hmode hni hctx ?_ ?_ _ _ _
      · intro i hi
        obtain ⟨h1, h2⟩ := hi
        have h1' : i ∉ insert f0 s.stopped := h1
        have h2' : ((NodeRef.src i, NodeRef.gain) ∈
              s.edges.filter (fun e => e.1 ≠ NodeRef.src f0)) ∨
            ((NodeRef.src i, NodeRef.hp) ∈
              s.edges.filter (fun e => e.1 ≠ NodeRef.src f0)) := h2
        have hif : i ≠ f0 := by
          intro he
          exact h1' (by rw [he]; exact Finset.mem_insert_self f0 _)
        have hpre : liveConn s i := by
          refine ⟨fun hc => h1' (Finset.mem_insert_of_mem hc), ?_⟩
          rcases h2' with h2' | h2'
          · exact Or.inl (Finset.mem_filter.mp h2').1
          · exact Or.inr (Finset.mem_filter.mp h2').1
        obtain ⟨-, b⟩ := h.lcOk i hpre
        rcases b with b | b
        · rw [hrs] at b
          exact Option.noConfusion b
        · rw [hfso] at b
          exact hif (Option.some.inj b).symm
      · intro e he hv
        have he2 : e ∈ s.edges.filter (fun e => e.1 ≠ NodeRef.src f0) := he
        exact h.visOk e (Finset.mem_filter.mp he2).1 hv

theorem bool_false_of_not_true {b : Bool} (h : ¬(b = true)) : b = false := by
  cases b
  · rfl
  · exact absurd rfl h

theorem inv_step (e : Ev) (s : St) (h : Inv s) : Inv (step e s) := by
  cases e with
  | start =>
    unfold step
    split_ifs with hv
    · exact h
    · exact inv_startAudio s h (bool_false_of_not_true hv)
  | stopRt =>
    unfold step
    split_ifs with hv
    · exact h
    · exact inv_stopAudio s h (bool_false_of_not_true hv)
  | switchRt => exact inv_switchRt s h
  | switchFile => exact inv_switchFile s h
  | load d =>
    unfold step
    split_ifs with hv
    · exact inv_loadFile d s h
    · exact h
  | play =>
    unfold step
    split_ifs with hv
    · exact inv_playFile s h hv
    · exact h
  | pause =>
    unfold step
    split_ifs with hv
    · exact inv_pauseFile s h
    · exact h
  | stopF =>
    unfold step
    split_ifs with hv
    · exact inv_stopFile s h
    · exact h
  | toggleOut => exact inv_toggleOutput s h
  | setVol p => exact inv_setVolume p s h
  | toggleRep =>
    unfold step
    split_ifs with hv
    · exact inv_toggleRepeat s h
    · exact h
  | mouseUp a b w lo hi => exact inv_mouseUp a b w lo hi s h
  | clear => exact inv_clearBand s h
  | tick => exact inv_tickFn s h
  | ended => exact inv_endedFn s h
  | advance dt => exact inv_advance dt s h

theorem inv_foldl (evs : List Ev) (s : St) (h : Inv s) :
    Inv (evs.foldl (fun s e => step e s) s) := by
  induction evs generalizing s with
  | nil => exact h
  | cons e rest ih => exact ih _ (inv_step e s h)

/-- Every state reachable from page load satisfies the invariant. -/
theorem inv_run (evs : List Ev) : Inv (run evs) :=
  inv_foldl evs init inv_init

theorem connect_band_pix (s : St) :
    (connectAudioPipeline s).selectedBandPixels = s.selectedBandPixels ∧
    (connectAudioPipeline s).selectedBand = s.selectedBand := by
  unfold connectAudioPipeline
  cases hc : s.currentSource with
  | none => simp [hc]
  | some c => split_ifs <;> cases hb : s.selectedBand <;> simp [hc]

/-- C2: after any event sequence, whenever the nodes exist and a current
source is set, the gain node's value equals `outputEnabled ? volumeLevel : 0`;
and the output-toggle and volume-slider handlers leave the wiring (the edge
set) unchanged. -/
theorem C2_gain_invariant (evs : List Ev) (p : ℚ)
    (h1 : (run evs).nodesInit = true) (h2 : (run evs).currentSource.isSome) :
    (run evs).gainValue =
      (if (run evs).outputEnabled then (run evs).volumeLevel else 0) ∧
    (run (evs ++ [Ev.toggleOut])).edges = (run evs).edges ∧
    (run (evs ++ [Ev.setVol p])).edges = (run evs).edges := by
  refine ⟨(inv_run evs).gainOk h1 h2, ?_, ?_⟩
  · rw [run_append]
    show (toggleOutput (run evs)).edges = (run evs).edges
    unfold toggleOutput updateCurrentVolume
    split_ifs <;> rfl
  · rw [run_append]
    show (setVolume p (run evs)).edges = (run evs).edges
    unfold setVolume updateCurrentVolume
    split_ifs <;> rfl

/-- Witness for C2 at the one-event trace `[start]` and volume 40. -/
theorem C2_gain_invariant_witness :
    (run [Ev.start]).gainValue =
      (if (run [Ev.start]).outputEnabled then (run [Ev.start]).volumeLevel else 0) ∧
    (run ([Ev.start] ++ [Ev.toggleOut])).edges = (run [Ev.start]).edges ∧
    (run ([Ev.start] ++ [Ev.setVol 40])).edges = (run [Ev.start]).edges :=
  C2_gain_invariant [Ev.start] 40 (by decide) (by decide)

/-- C3 counterexample: start the microphone, switch to the file panel, load a
10-second buffer and press play.  The stale microphone source node (id 0) was
never disconnected, so it and the fresh file buffer source (id 1) are both
wired into the graph input (the gain node) at once. -/
theorem C3_counterexample :
    (NodeRef.src 0, NodeRef.gain) ∈
      (run [Ev.start, Ev.switchFile, Ev.load 10, Ev.play]).edges ∧
    (NodeRef.src 1, NodeRef.gain) ∈
      (run [Ev.start, Ev.switchFile, Ev.load 10, Ev.play]).edges ∧
    (run [Ev.start, Ev.switchFile, Ev.load 10, Ev.play]).kinds.lookup 0 =
      Option.some SrcKind.mic ∧
    (run [Ev.start, Ev.switchFile, Ev.load 10, Ev.play]).kinds.lookup 1 =
      Option.some SrcKind.fileBuf := by
  decide

/-- C3 (amended): after any event sequence, at most one LIVE source — one that
has not been stopped/silenced — is connected to the graph input; any stale
second connection belongs to a stopped (hence silent) node. -/
theorem C3_at_most_one_live (evs : List Ev) (i j : ℕ)
    (hi : liveConn (run evs) i) (hj : liveConn (run evs) j) : i = j := by
  have h1 := ((inv_run evs).lcOk i hi).1
  have h2 := ((inv_run evs).lcOk j hj).1
  rw [h1] at h2
  exact Option.some.inj h2

/-- Witness for C3 (amended): after `[start]` source 0 is live, and the
theorem applied at i = j = 0 yields 0 = 0. -/
theorem C3_at_most_one_live_witness :
    liveConn (run [Ev.start]) 0 ∧ (0 : ℕ) = 0 :=
  ⟨by unfold liveConn; decide,
   C3_at_most_one_live [Ev.start] 0 0 (by unfold liveConn; decide)
     (by unfold liveConn; decide)⟩

/-- C4: whenever a band `(lo, hi)` is selected, rewiring sets the highpass
cutoff to `max 10 lo` and the lowpass cutoff to `max (hp + 10) hi`, so the
lowpass cutoff is at least the highpass cutoff plus 10 — even for degenerate
selections with `lo = hi`. -/
theorem C4_band_filter_ordering (s : St) (c : ℕ) (lo hi : ℚ)
    (hc : s.currentSource = Option.some c) (hn : s.nodesInit = true)
    (hb : s.selectedBand = Option.some (lo, hi)) :
    (connectAudioPipeline s).hpFreq = max 10 lo ∧
    (connectAudioPipeline s).lpFreq = max ((connectAudioPipeline s).hpFreq + 10) hi ∧
    (connectAudioPipeline s).hpFreq + 10 ≤ (connectAudioPipeline s).lpFreq := by
  obtain ⟨h1, h2⟩ := connect_band_freqs s c lo hi hc hn hb
  refine ⟨h1, ?_, ?_⟩
  · rw [h2, h1]
  · rw [h1, h2]
    exact le_max_left _ _

/-- Witness for C4 at the degenerate selection `lo = hi = 100`. -/
theorem C4_band_filter_ordering_witness :
    (connectAudioPipeline { init with currentSource := Option.some 0, nodesInit := true, selectedBand := Option.some (100, 100) }).hpFreq + 10 ≤ (connectAudioPipeline { init with currentSource := Option.some 0, nodesInit := true, selectedBand := Option.some (100, 100) }).lpFreq :=
  (C4_band_filter_ordering { init with currentSource := Option.some 0, nodesInit := true, selectedBand := Option.some (100, 100) } 0 100 100 rfl rfl rfl).2.2

/-- C8: in every reachable state each edge into the analyser comes straight
from a source node (never through the gain/filter chain), and every rewire
connects the current source to the analyser — with or without a band. -/
theorem C8_analysis_tap (evs : List Ev) (s : St) (c : ℕ)
    (hc : s.currentSource = Option.some c) (hn : s.nodesInit = true) :
    (∀ e ∈ (run evs).edges, e.2 = NodeRef.vis → ∃ i, e.1 = NodeRef.src i) ∧
    (NodeRef.src c, NodeRef.vis) ∈ (connectAudioPipeline s).edges :=
  ⟨(inv_run evs).visOk, connect_vis_edge s c hc hn⟩

/-- Witness for C8 at the trace `[start]` with source 0. -/
theorem C8_analysis_tap_witness :
    (∀ e ∈ (run [Ev.start]).edges, e.2 = NodeRef.vis → ∃ i, e.1 = NodeRef.src i) ∧
    (NodeRef.src 0, NodeRef.vis) ∈ (connectAudioPipeline (run [Ev.start])).edges :=
  C8_analysis_tap [Ev.start] (run [Ev.start]) 0 (by decide) (by decide)

/-- C10: a completed drag commits a band exactly when both (ordered) endpoints
lie inside the plot area (`0 ≤ x1` and `x2 ≤ rectW - 10`) and the span is at
least 5 px; any other completed drag clears the selection and the rewire puts
the graph back to pass-through (source straight to gain, no highpass leg). -/
theorem C10_drag_commit (s : St) (xs xe rectW lo hi : ℚ) :
    (0 ≤ min xs xe ∧ max xs xe ≤ rectW - 10 ∧ 5 ≤ max xs xe - min xs xe →
      (mouseUpFn xs xe rectW lo hi s).selectedBand = Option.some (lo, hi) ∧
      (mouseUpFn xs xe rectW lo hi s).selectedBandPixels =
        Option.some (min xs xe, max xs xe)) ∧
    (¬(0 ≤ min xs xe ∧ max xs xe ≤ rectW - 10 ∧ 5 ≤ max xs xe - min xs xe) →
      (mouseUpFn xs xe rectW lo hi s).selectedBand = Option.none ∧
      (mouseUpFn xs xe rectW lo hi s).selectedBandPixels = Option.none ∧
      (∀ c, s.currentSource = Option.some c → s.nodesInit = true →
        (NodeRef.src c, NodeRef.gain) ∈ (mouseUpFn xs xe rectW lo hi s).edges ∧
        (NodeRef.src c, NodeRef.hp) ∉ (mouseUpFn xs xe rectW lo hi s).edges)) := by
  unfold mouseUpFn
  dsimp only
  split_ifs with hcond
  · constructor
    · intro _
      exact ⟨(connect_band_pix _).2.trans rfl, (connect_band_pix _).1.trans rfl⟩
    · intro hneg
      exact absurd hcond hneg
  · constructor
    · intro hpos
      exact absurd hpos hcond
    · intro _
      unfold clearBand
      refine ⟨(connect_band_pix _).2.trans rfl, (connect_band_pix _).1.trans rfl, ?_⟩
      intro c hc hn
      exact connect_passthrough _ c hc hn rfl

/-- Witness for C10: after `[start]`, an in-plot 100 px drag commits the band,
and a 1 px drag falls back to a clear. -/
theorem C10_drag_commit_witness :
    (mouseUpFn 20 120 400 1000 2000 (run [Ev.start])).selectedBand =
      Option.some (1000, 2000) ∧
    (mouseUpFn 20 21 400 1000 2000 (run [Ev.start])).selectedBand = Option.none :=
  ⟨((C10_drag_commit (run [Ev.start]) 20 120 400 1000 2000).1
      (by norm_num [min_def, max_def])).1,
   ((C10_drag_commit (run [Ev.start]) 20 21 400 1000 2000).2
      (by norm_num [min_def, max_def])).1⟩

/-- The state after `[switchFile, load d, play]`: file mode, panel shown,
buffer of duration `d` loaded, node 0 playing from offset 0, pass-through
wiring. -/
def stPlaying (d : ℚ) : St :=
  { init with hasCtx := true, nodesInit := true, hpFreq := 20, lpFreq := 20000, inputMode := Mode.file, fileUIVisible := true, fileLoaded := true, fileDuration := d, fileSource := Option.some 0, currentSource := Option.some 0, nextId := 1, kinds := [(0, SrcKind.fileBuf)], edges := insert (NodeRef.src 0, NodeRef.vis) (insert (NodeRef.gain, NodeRef.dest) (insert (NodeRef.src 0, NodeRef.gain) ∅)), isPlaying := true, intervalActive := true, pausedTime := 0 / 100 * d, lastStartOffset := 0 / 100 * d }

theorem run_play_eq (d : ℚ) :
    run [Ev.switchFile, Ev.load d, Ev.play] = stPlaying d := rfl

/-- A poller firing that does not yet see the end of the buffer only refreshes
the timeline display. -/
theorem tickFn_running (s : St) (hi : s.intervalActive = true)
    (hp : s.isPlaying = true) (hc : s.hasCtx = true)
    (hno : ¬(s.fileDuration ≤ s.clock - s.playStartTime + s.pausedTime)) :
    tickFn s = { s with timelineProgress := min ((s.clock - s.playStartTime + s.pausedTime) / s.fileDuration) 1 * 100, displayedTime := s.clock - s.playStartTime + s.pausedTime } := by
  unfold tickFn
  dsimp only
  split_ifs with ha hb
  · exact absurd hb.1 hno
  · rfl
  · exact absurd ⟨hi, hp, hc⟩ ha

/-- A poller firing that sees `elapsed >= duration` while not repeating calls
`stopFile()`: node torn down, `isPlaying` cleared, timeline reset to 0. -/
theorem tickFn_stops (s : St) (f : ℕ) (hi : s.intervalActive = true)
    (hp : s.isPlaying = true) (hc : s.hasCtx = true) (hr : s.isRepeating = false)
    (hf : s.fileSource = Option.some f)
    (hyes : s.fileDuration ≤ s.clock - s.playStartTime + s.pausedTime) :
    tickFn s = { s with edges := s.edges.filter (fun e => e.1 ≠ NodeRef.src f), stopped := insert f s.stopped, fileSource := Option.none, isPlaying := false, timelineProgress := 0, displayedTime := 0, intervalActive := false } := by
  unfold tickFn
  dsimp only
  split_ifs with ha hb
  · unfold stopFile killFileNode
    dsimp only
    rw [hf]
    try rfl
  · exact absurd ⟨hyes, by simp [hr]⟩ hb
  · exact absurd ⟨hi, hp, hc⟩ ha

/-- Once the natural end time has passed, the `onended` handler of a
non-repeating playback runs `pauseFile()`: the node is torn down and
`isPlaying` cleared, but the timeline display is left untouched. -/
theorem endedFn_pause (s : St) (f : ℕ) (hp : s.isPlaying = true)
    (hf : s.fileSource = Option.some f) (hl : s.nodeLoop = false)
    (hr : s.isRepeating = false)
    (ht : s.playStartTime + (s.fileDuration - s.pausedTime) ≤ s.clock) :
    endedFn s = { s with edges := s.edges.filter (fun e => e.1 ≠ NodeRef.src f), stopped := insert f s.stopped, fileSource := Option.none, isPlaying := false, intervalActive := false } := by
  unfold endedFn pauseFile killFileNode
  split_ifs with h1 h2 h3 <;>
    first
      | (rw [hf]; try rfl)
      | (exact (h3 ⟨by simp [hf], hp⟩).elim)
      | (exact absurd h2 (by simp [hr]))
      | (exact (h1 ⟨hp, by simp [hf], by simp [hl], ht⟩).elim)

/-- The state after `[switchFile, load d, play, advance t, tick]` when the
poller fires strictly before the end of the buffer. -/
def stTicked (d t : ℚ) : St :=
  { stPlaying d with clock := 0 + t, timelineProgress := t / d * 100, displayedTime := t }

theorem run_tick_eq (d t : ℚ) (h1 : 0 < t) (h2 : t < d) :
    run [Ev.switchFile, Ev.load d, Ev.play, Ev.advance t, Ev.tick] = stTicked d t := by
  have hd : 0 < d := h1.trans h2
  have e4 : run [Ev.switchFile, Ev.load d, Ev.play, Ev.advance t] =
      { stPlaying d with clock := 0 + t } := rfl
  rw [show ([Ev.switchFile, Ev.load d, Ev.play, Ev.advance t, Ev.tick] : List Ev) =
      [Ev.switchFile, Ev.load d, Ev.play, Ev.advance t] ++ [Ev.tick] from rfl,
    run_append, e4]
  have hno : ¬(({ stPlaying d with clock := 0 + t } : St).fileDuration ≤
      ({ stPlaying d with clock := 0 + t } : St).clock -
        ({ stPlaying d with clock := 0 + t } : St).playStartTime +
        ({ stPlaying d with clock := 0 + t } : St).pausedTime) := by
    show ¬((d : ℚ) ≤ 0 + t - 0 + 0 / 100 * d)
    intro hle
    have hcon : d ≤ t := by linarith
    exact absurd hcon (not_le.mpr h2)
  show tickFn { stPlaying d with clock := 0 + t } = stTicked d t
  rw [tickFn_running _ rfl rfl rfl hno]
  have hE : ({ stPlaying d with clock := 0 + t } : St).clock -
      ({ stPlaying d with clock := 0 + t } : St).playStartTime +
      ({ stPlaying d with clock := 0 + t } : St).pausedTime = t := by
    show (0 : ℚ) + t - 0 + 0 / 100 * d = t
    ring
  rw [hE]
  have hD : ({ stPlaying d with clock := 0 + t } : St).fileDuration = d := rfl
  rw [hD, min_eq_left ((div_le_one hd).mpr h2.le)]
  rfl

/-- C1 counterexample: load a 1-second buffer, play it, let the clock pass the
end, and let the 100ms poller fire before the `onended` callback.  Although
the natural end had been reached while playing and not repeating, the poller
calls `stopFile()`: the transport ends Stopped with the position reset to 0,
and the subsequent `onended` delivery is a no-op. -/
theorem C1_counterexample :
    ((run [Ev.switchFile, Ev.load 1, Ev.play, Ev.advance 2]).playStartTime +
        ((run [Ev.switchFile, Ev.load 1, Ev.play, Ev.advance 2]).fileDuration -
          (run [Ev.switchFile, Ev.load 1, Ev.play, Ev.advance 2]).pausedTime) ≤
      (run [Ev.switchFile, Ev.load 1, Ev.play, Ev.advance 2]).clock) ∧
    (run [Ev.switchFile, Ev.load 1, Ev.play, Ev.advance 2]).isPlaying = true ∧
    (run [Ev.switchFile, Ev.load 1, Ev.play, Ev.advance 2]).isRepeating = false ∧
    (run [Ev.switchFile, Ev.load 1, Ev.play, Ev.advance 2, Ev.tick]).isPlaying = false ∧
    (run [Ev.switchFile, Ev.load 1, Ev.play, Ev.advance 2, Ev.tick]).fileSource =
      Option.none ∧
    (run [Ev.switchFile, Ev.load 1, Ev.play, Ev.advance 2, Ev.tick]).timelineProgress = 0 ∧
    (run [Ev.switchFile, Ev.load 1, Ev.play, Ev.advance 2, Ev.tick]).displayedTime = 0 ∧
    endedFn (run [Ev.switchFile, Ev.load 1, Ev.play, Ev.advance 2, Ev.tick]) =
      run [Ev.switchFile, Ev.load 1, Ev.play, Ev.advance 2, Ev.tick] := by
  have e4 : run [Ev.switchFile, Ev.load 1, Ev.play, Ev.advance 2] =
      { stPlaying 1 with clock := 0 + 2 } := rfl
  have e5 : run [Ev.switchFile, Ev.load 1, Ev.play, Ev.advance 2, Ev.tick] =
      tickFn { stPlaying 1 with clock := 0 + 2 } := by
    rw [show ([Ev.switchFile, Ev.load 1, Ev.play, Ev.advance 2, Ev.tick] : List Ev) =
        [Ev.switchFile, Ev.load 1, Ev.play, Ev.advance 2] ++ [Ev.tick] from rfl,
      run_append, e4]
    rfl
  have e5' := tickFn_stops ({ stPlaying 1 with clock := 0 + 2 } : St) 0
    rfl rfl rfl rfl rfl
    (by show (1 : ℚ) ≤ 0 + 2 - 0 + 0 / 100 * 1; norm_num)
  refine ⟨by show (0 : ℚ) + (1 - 0 / 100 * 1) ≤ 0 + 2; norm_num, rfl, rfl,
    ?_, ?_, ?_, ?_, ?_⟩ <;>
    rw [e5, e5'] <;>
    first
      | rfl
      | (unfold endedFn; exact if_neg (fun hcon => Bool.false_ne_true hcon.1))

/-- C1 (amended): when a non-repeating playback passes its natural end and the
`onended` callback is delivered before any poller tick at or after the end,
the transport ends Paused (node torn down, `isPlaying` cleared, poller
stopped) with the position frozen at the last poller update — nonzero, not
reset; if instead the poller fires first it ends Stopped with position 0. -/
theorem C1_natural_end_pauses (d t1 t2 : ℚ) (h1 : 0 < t1) (h2 : t1 < d)
    (h3 : d ≤ t1 + t2) :
    (run [Ev.switchFile, Ev.load d, Ev.play, Ev.advance t1, Ev.tick, Ev.advance t2,
        Ev.ended]).isPlaying = false ∧
    (run [Ev.switchFile, Ev.load d, Ev.play, Ev.advance t1, Ev.tick, Ev.advance t2,
        Ev.ended]).fileSource = Option.none ∧
    (run [Ev.switchFile, Ev.load d, Ev.play, Ev.advance t1, Ev.tick, Ev.advance t2,
        Ev.ended]).intervalActive = false ∧
    (run [Ev.switchFile, Ev.load d, Ev.play, Ev.advance t1, Ev.tick, Ev.advance t2,
        Ev.ended]).inputMode = Mode.file ∧
    (run [Ev.switchFile, Ev.load d, Ev.play, Ev.advance t1, Ev.tick, Ev.advance t2,
        Ev.ended]).timelineProgress = t1 / d * 100 ∧
    (run [Ev.switchFile, Ev.load d, Ev.play, Ev.advance t1, Ev.tick, Ev.advance t2,
        Ev.ended]).displayedTime = t1 ∧
    (run [Ev.switchFile, Ev.load d, Ev.play, Ev.advance t1, Ev.tick, Ev.advance t2,
        Ev.ended]).timelineProgress ≠ 0 := by
  have hd : 0 < d := h1.trans h2
  have e5 := run_tick_eq d t1 h1 h2
  have e6 : run [Ev.switchFile, Ev.load d, Ev.play, Ev.advance t1, Ev.tick,
      Ev.advance t2] = { stTicked d t1 with clock := 0 + t1 + t2 } := by
    rw [show ([Ev.switchFile, Ev.load d, Ev.play, Ev.advance t1, Ev.tick,
        Ev.advance t2] : List Ev) =
        [Ev.switchFile, Ev.load d, Ev.play, Ev.advance t1, Ev.tick] ++
          [Ev.advance t2] from rfl, run_append, e5]
    rfl
  have e7 : run [Ev.switchFile, Ev.load d, Ev.play, Ev.advance t1, Ev.tick,
      Ev.advance t2, Ev.ended] =
      endedFn { stTicked d t1 with clock := 0 + t1 + t2 } := by
    rw [show ([Ev.switchFile, Ev.load d, Ev.play, Ev.advance t1, Ev.tick,
        Ev.advance t2, Ev.ended] : List Ev) =
        [Ev.switchFile, Ev.load d, Ev.play, Ev.advance t1, Ev.tick, Ev.advance t2] ++
          [Ev.ended] from rfl, run_append, e6]
    rfl
  have ht : ({ stTicked d t1 with clock := 0 + t1 + t2 } : St).playStartTime +
      (({ stTicked d t1 with clock := 0 + t1 + t2 } : St).fileDuration -
        ({ stTicked d t1 with clock := 0 + t1 + t2 } : St).pausedTime) ≤
      ({ stTicked d t1 with clock := 0 + t1 + t2 } : St).clock := by
    show (0 : ℚ) + (d - 0 / 100 * d) ≤ 0 + t1 + t2
    linarith
  have e8 := endedFn_pause { stTicked d t1 with clock := 0 + t1 + t2 } 0
    rfl rfl rfl rfl ht
  rw [e7, e8]
  refine ⟨rfl, rfl, rfl, rfl, rfl, rfl, ?_⟩
  show t1 / d * 100 ≠ 0
  exact ne_of_gt (by positivity)

/-- Witness for C1 (amended) at duration 2 with the last pre-end tick at 1 and
the end crossed 2 seconds later. -/
theorem C1_natural_end_pauses_witness :
    (run [Ev.switchFile, Ev.load 2, Ev.play, Ev.advance 1, Ev.tick, Ev.advance 2,
        Ev.ended]).isPlaying = false ∧
    (run [Ev.switchFile, Ev.load 2, Ev.play, Ev.advance 1, Ev.tick, Ev.advance 2,
        Ev.ended]).fileSource = Option.none ∧
    (run [Ev.switchFile, Ev.load 2, Ev.play, Ev.advance 1, Ev.tick, Ev.advance 2,
        Ev.ended]).intervalActive = false ∧
    (run [Ev.switchFile, Ev.load 2, Ev.play, Ev.advance 1, Ev.tick, Ev.advance 2,
        Ev.ended]).inputMode = Mode.file ∧
    (run [Ev.switchFile, Ev.load 2, Ev.play, Ev.advance 1, Ev.tick, Ev.advance 2,
        Ev.ended]).timelineProgress = 1 / 2 * 100 ∧
    (run [Ev.switchFile, Ev.load 2, Ev.play, Ev.advance 1, Ev.tick, Ev.advance 2,
        Ev.ended]).displayedTime = 1 ∧
    (run [Ev.switchFile, Ev.load 2, Ev.play, Ev.advance 1, Ev.tick, Ev.advance 2,
        Ev.ended]).timelineProgress ≠ 0 :=
  C1_natural_end_pauses 2 1 2 (by norm_num) (by norm_num) (by norm_num)

/-- C7: play, pause at elapsed t, play again with no argument: pause records
elapsed = (clock - anchor) + pausedOffset through the timeline, and the resume
starts the new node at offset exactly t (nonzero), anchored at the current
clock. -/
theorem C7_pause_resume_offset (d t : ℚ) (h1 : 0 < t) (h2 : t < d) :
    (run [Ev.switchFile, Ev.load d, Ev.play, Ev.advance t, Ev.tick, Ev.pause,
        Ev.play]).lastStartOffset = t ∧
    (run [Ev.switchFile, Ev.load d, Ev.play, Ev.advance t, Ev.tick, Ev.pause,
        Ev.play]).pausedTime = t ∧
    (run [Ev.switchFile, Ev.load d, Ev.play, Ev.advance t, Ev.tick, Ev.pause,
        Ev.play]).isPlaying = true ∧
    (run [Ev.switchFile, Ev.load d, Ev.play, Ev.advance t, Ev.tick, Ev.pause,
        Ev.play]).playStartTime =
      (run [Ev.switchFile, Ev.load d, Ev.play, Ev.advance t, Ev.tick, Ev.pause,
        Ev.play]).clock ∧
    (run [Ev.switchFile, Ev.load d, Ev.play, Ev.advance t, Ev.tick, Ev.pause,
        Ev.play]).lastStartOffset ≠ 0 := by
  have hd : 0 < d := h1.trans h2
  have hd0 : d ≠ 0 := ne_of_gt hd
  have e5 := run_tick_eq d t h1 h2
  have e6 : run [Ev.switchFile, Ev.load d, Ev.play, Ev.advance t, Ev.tick, Ev.pause] =
      pauseFile (stTicked d t) := by
    rw [show ([Ev.switchFile, Ev.load d, Ev.play, Ev.advance t, Ev.tick,
        Ev.pause] : List Ev) =
        [Ev.switchFile, Ev.load d, Ev.play, Ev.advance t, Ev.tick] ++ [Ev.pause]
        from rfl, run_append, e5]
    rfl
  have e7 : run [Ev.switchFile, Ev.load d, Ev.play, Ev.advance t, Ev.tick, Ev.pause,
      Ev.play] = playFile (pauseFile (stTicked d t)) := by
    rw [show ([Ev.switchFile, Ev.load d, Ev.play, Ev.advance t, Ev.tick, Ev.pause,
        Ev.play] : List Ev) =
        [Ev.switchFile, Ev.load d, Ev.play, Ev.advance t, Ev.tick, Ev.pause] ++
          [Ev.play] from rfl, run_append, e6]
    rfl
  rw [e7]
  have hoff : (playFile (pauseFile (stTicked d t))).lastStartOffset =
      t / d * 100 / 100 * d := rfl
  have hpt : (playFile (pauseFile (stTicked d t))).pausedTime =
      t / d * 100 / 100 * d := rfl
  have hval : t / d * 100 / 100 * d = t := by
    field_simp
    ring
  refine ⟨?_, ?_, rfl, rfl, ?_⟩
  · rw [hoff, hval]
  · rw [hpt, hval]
  · rw [hoff, hval]
    exact ne_of_gt h1

/-- Witness for C7: pause a 10-second file at elapsed 3, resume; the new node
starts at offset 3. -/
theorem C7_pause_resume_offset_witness :
    (run [Ev.switchFile, Ev.load 10, Ev.play, Ev.advance 3, Ev.tick, Ev.pause,
        Ev.play]).lastStartOffset = 3 ∧
    (run [Ev.switchFile, Ev.load 10, Ev.play, Ev.advance 3, Ev.tick, Ev.pause,
        Ev.play]).pausedTime = 3 ∧
    (run [Ev.switchFile, Ev.load 10, Ev.play, Ev.advance 3, Ev.tick, Ev.pause,
        Ev.play]).isPlaying = true ∧
    (run [Ev.switchFile, Ev.load 10, Ev.play, Ev.advance 3, Ev.tick, Ev.pause,
        Ev.play]).playStartTime =
      (run [Ev.switchFile, Ev.load 10, Ev.play, Ev.advance 3, Ev.tick, Ev.pause,
        Ev.play]).clock ∧
    (run [Ev.switchFile, Ev.load 10, Ev.play, Ev.advance 3, Ev.tick, Ev.pause,
        Ev.play]).lastStartOffset ≠ 0 :=
  C7_pause_resume_offset 10 3 (by norm_num) (by norm_num)

/-- `true` when an exception escaped the modelled function. -/
def isErr : Except St St → Bool
  | Except.error _ => true
  | Except.ok _ => false

/-- The state a teardown attempt left behind, thrown or not. -/
def exOut : Except St St → St
  | Except.error t => t
  | Except.ok t => t

/-- `stopCurrentInput()` with exceptions made explicit.  `thr` says whether
`fileSourceNode.stop()` throws (e.g. the node is already stopped);
`disconnect()` and `MediaStreamTrack.stop()` do not throw.  The file branch
has no try/catch, so a throw escapes after the `disconnect()`:
`fileSourceNode`, `isPlaying`, `currentSourceNode` and `inputMode` keep their
old values (`Except.error`). -/
def stopCurrentInputT (thr : Bool) (s : St) : Except St St :=
  if s.inputMode = Mode.realtime ∧ s.realtimeSource.isSome then
    Except.ok { s with stopped := insert (s.realtimeSource.getD 0) s.stopped, realtimeSource := Option.none, currentSource := Option.none, inputMode := Mode.none }
  else if s.inputMode = Mode.file ∧ s.fileSource.isSome then
    let f := s.fileSource.getD 0
    let s1 := { s with edges := s.edges.filter (fun e => e.1 ≠ NodeRef.src f) }
    if thr then Except.error s1
    else Except.ok { s1 with stopped := insert f s1.stopped, fileSource := Option.none, isPlaying := false, currentSource := Option.none, inputMode := Mode.none }
  else Except.ok { s with currentSource := Option.none, inputMode := Mode.none }

/-- `pauseFile()` with exceptions made explicit: the `disconnect()`/`stop()`
pair sits inside try/catch, so a throw is swallowed and the tail
(`fileSourceNode = null`, `isPlaying = false`, `stopTimeUpdate()`) always
runs. -/
def pauseFileT (thr : Bool) (s : St) : Except St St :=
  if s.fileSource.isSome ∧ s.isPlaying then
    let f := s.fileSource.getD 0
    let attempt : Except St St :=
      let s1 := { s with edges := s.edges.filter (fun e => e.1 ≠ NodeRef.src f) }
      if thr then Except.error s1 else Except.ok { s1 with stopped := insert f s1.stopped }
    Except.ok { exOut attempt with fileSource := Option.none, isPlaying := false, intervalActive := false }
  else Except.ok s

/-- `stopFile()` with exceptions made explicit: same try/catch around the
`disconnect()`/`stop()` pair; the timeline reset and `stopTimeUpdate()`
always run. -/
def stopFileT (thr : Bool) (s : St) : Except St St :=
  let s1 :=
    match s.fileSource with
    | Option.some f =>
      let attempt : Except St St :=
        let t := { s with edges := s.edges.filter (fun e => e.1 ≠ NodeRef.src f) }
        if thr then Except.error t else Except.ok { t with stopped := insert f t.stopped }
      { exOut attempt with fileSource := Option.none }
    | Option.none => s
  Except.ok { s1 with isPlaying := false, timelineProgress := 0, displayedTime := 0, intervalActive := false }

/-- C9 counterexample: while a file is playing, a throwing
`fileSourceNode.stop()` inside `stopCurrentInput()` escapes — the branch has
no try/catch — so the cleanup after it never runs: the dead node stays
referenced, `isPlaying` stays true, and the mode is never reset, even though
the `disconnect()` before the throw already ran. -/
theorem C9_counterexample :
    isErr (stopCurrentInputT true (run [Ev.switchFile, Ev.load 10, Ev.play])) = true ∧
    (exOut (stopCurrentInputT true (run [Ev.switchFile, Ev.load 10, Ev.play]))).fileSource =
      Option.some 0 ∧
    (exOut (stopCurrentInputT true (run [Ev.switchFile, Ev.load 10, Ev.play]))).isPlaying =
      true ∧
    (exOut (stopCurrentInputT true (run [Ev.switchFile, Ev.load 10, Ev.play]))).inputMode =
      Mode.file ∧
    (exOut (stopCurrentInputT true (run [Ev.switchFile, Ev.load 10, Ev.play]))).currentSource =
      Option.some 0 :=
  ⟨rfl, rfl, rfl, rfl, rfl⟩

/-- C9 (amended): the pause/stop-file teardown paths are wrapped — a throwing
stop never escapes them and their cleanup completes — and every stop
operation tolerates an idle invocation; but the file branch of
`stopCurrentInput()` is not wrapped: it throws exactly when the stop throws
while a file input is active. -/
theorem C9_teardown_wrapping (s : St) (thr : Bool) :
    isErr (pauseFileT thr s) = false ∧
    (s.fileSource.isSome → s.isPlaying = true →
      (exOut (pauseFileT thr s)).fileSource = Option.none ∧
      (exOut (pauseFileT thr s)).isPlaying = false ∧
      (exOut (pauseFileT thr s)).intervalActive = false) ∧
    isErr (stopFileT thr s) = false ∧
    (exOut (stopFileT thr s)).fileSource = Option.none ∧
    (exOut (stopFileT thr s)).isPlaying = false ∧
    (exOut (stopFileT thr s)).timelineProgress = 0 ∧
    pauseFileT false s = Except.ok (pauseFile s) ∧
    stopFileT false s = Except.ok (stopFile s) ∧
    stopCurrentInputT false s = Except.ok (stopCurrentInput s) ∧
    (isErr (stopCurrentInputT thr s) = true ↔
      thr = true ∧ s.inputMode = Mode.file ∧ s.fileSource.isSome = true) := by
  refine ⟨?_, ?_, ?_, ?_, ?_, ?_, ?_, ?_, ?_, ?_⟩
  · unfold pauseFileT
    split_ifs <;> cases thr <;> rfl
  · intro h1 h2
    cases thr <;>
      refine ⟨?_, ?_, ?_⟩ <;> simp [pauseFileT, exOut, h1, h2]
  · unfold stopFileT
    cases hfs : s.fileSource <;> cases thr <;> simp [hfs, isErr]
  · unfold stopFileT
    cases hfs : s.fileSource <;> cases thr <;> simp [hfs, exOut]
  · unfold stopFileT
    cases hfs : s.fileSource <;> cases thr <;> simp [hfs, exOut]
  · unfold stopFileT
    cases hfs : s.fileSource <;> cases thr <;> simp [hfs, exOut]
  · unfold pauseFileT pauseFile killFileNode
    simp only [Bool.false_eq_true, if_false]
    split_ifs <;> rfl
  · unfold stopFileT stopFile killFileNode
    cases hfs : s.fileSource <;> simp [hfs, exOut]
  · unfold stopCurrentInputT stopCurrentInput killFileNode
    simp only [Bool.false_eq_true, if_false]
    split_ifs <;> rfl
  · unfold stopCurrentInputT
    split_ifs with ha hb hc
    · simp [isErr, ha.1]
    · simp [isErr, hc, hb.1, hb.2]
    · simp [isErr, hc, hb.1, hb.2]
    · refine iff_of_false (by simp [isErr]) ?_
      rintro ⟨h1', h2', h3'⟩
      exact hb ⟨h2', h3'⟩

/-- Witness for C9 (amended) at the playing state after
`[switchFile, load 10, play]` with a throwing stop. -/
theorem C9_teardown_wrapping_witness :
    isErr (pauseFileT true (run [Ev.switchFile, Ev.load 10, Ev.play])) = false ∧
    (exOut (pauseFileT true (run [Ev.switchFile, Ev.load 10, Ev.play]))).fileSource =
      Option.none ∧
    isErr (stopFileT true (run [Ev.switchFile, Ev.load 10, Ev.play])) = false :=
  ⟨(C9_teardown_wrapping (run [Ev.switchFile, Ev.load 10, Ev.play]) true).1,
   ((C9_teardown_wrapping (run [Ev.switchFile, Ev.load 10, Ev.play]) true).2.1
      (by decide) (by decide)).1,
   (C9_teardown_wrapping (run [Ev.switchFile, Ev.load 10, Ev.play]) true).2.2.1⟩

end AudioWaveViewer
